import Mathlib

/-!
# snow-data: bounds-checked aligned memory blocks

A shallow embedding of `ext/snow-data/snow-data.c` (the C extension behind
`Snow::Memory`) and theorems about it.

Conventions of the embedding (LP64, little-endian host):

* `size_t` / `intptr_t` values are natural numbers; every C integer operation
  that can wrap is written with `wadd`, `wsub`, `wnot`, which reduce modulo
  `2 ^ 64`.
* The process memory is a total map from addresses to bytes.  Pointer
  arithmetic inside an object (`data + offset`) is plain addition.
* A `Snow::Memory` object is the record `Memory`: the `RData` fields `data`
  and `dfree`, the two instance variables `@__bytesize__` and
  `@__alignment__`, and the frozen flag of the Ruby object.
* Ruby `Integer` arguments are integers; an optional argument that is `nil`,
  `false` or omitted is `none`.  Arguments converted by `NUM2SIZET` on entry
  are given as the converted `size_t`.
* A raised exception is `Except.error` with the error kind of the raise site.
-/

namespace SnowData

/-! ## Machine words -/

/-- Addition of two `size_t` values. -/
def wadd (a b : Nat) : Nat := (a + b) % 2 ^ 64

/-- Subtraction of two `size_t` values. -/
def wsub (a b : Nat) : Nat := (a % 2 ^ 64 + 2 ^ 64 - b % 2 ^ 64) % 2 ^ 64

/-- Bitwise complement of a `size_t` value. -/
def wnot (a : Nat) : Nat := 2 ^ 64 - 1 - a % 2 ^ 64

/-- Two's-complement value of the `w`-byte pattern `x`. -/
def toSigned (w : Nat) (x : Nat) : Int :=
  if x % 256 ^ w < 256 ^ w / 2 then (x % 256 ^ w : Nat) else (x % 256 ^ w : Nat) - (256 ^ w : Nat)

/-! ## Errors -/

/-- Error kinds, one per kind of raise site in the extension.

* `NullBlock`: `rb_raise(rb_eRuntimeError, "Pointer is NULL")` in `sd_check_null_block`.
* `OutOfBounds`: the `rb_eRangeError`s of `sd_check_block_bounds` and of the
  range checks in `sd_memory_copy`.
* `InvalidArgument`: the `rb_eArgError`s of `sd_memory_new` and `sd_memory_copy`
  and the `rb_eRangeError`s for a zero size or a non-power-of-two alignment.
* `DoubleFree`: `rb_raise(rb_eRuntimeError, "Double-free on %s")`.
* `Frozen`: `rb_check_frozen`.
* `OutOfMemory`: `rb_eNoMemError` in `com_malloc`.
* `RuntimeFault`: `"self.bytesize == 0 -- cannot safely copy to this block"`.
* `InvalidFree`: `"Attempt to call free on NULL"` in `com_free`.
* `HostConversion`: an exception raised by one of the host's value conversions
  (`NUM2*`, `StringValueCStr`). -/
inductive SdError where
  | NullBlock
  | OutOfBounds
  | InvalidArgument
  | DoubleFree
  | Frozen
  | OutOfMemory
  | RuntimeFault
  | InvalidFree
  | HostConversion
  deriving DecidableEq, Repr

deriving instance DecidableEq for Except

/-! ## State -/

/-- The process heap: the byte stored at every address, and the pointers that
have been handed to `xfree`, most recent first. -/
structure Heap where
  mem : Nat → Nat
  released : List Nat

/-- A `Snow::Memory` object. `data` is `RDATA(self)->data` (`0` is `NULL`),
`dfree` tells whether `RDATA(self)->dfree` is set (it is only ever `com_free`),
`bytesize` and `alignment` are the instance variables `@__bytesize__` and
`@__alignment__`, `frozen` is the object's frozen flag. -/
structure Memory where
  data : Nat
  dfree : Bool
  bytesize : Nat
  alignment : Nat
  frozen : Bool
  deriving DecidableEq, Repr

/-- Little-endian read of `w` bytes at address `a`. -/
def load (m : Nat → Nat) (a : Nat) : Nat → Nat
  | 0 => 0
  | w + 1 => m a % 256 + 256 * load m (a + 1) w

/-- Little-endian write of the low `w` bytes of `v` at address `a`. -/
def store (m : Nat → Nat) (a w v : Nat) : Nat → Nat :=
  fun x => if a ≤ x ∧ x < a + w then v / 256 ^ (x - a) % 256 else m x

/-- Effect of `memcpy` / `memmove` of `n` bytes from `src` to `dst`: every
destination byte receives the byte the source held before the call. -/
def memmove (m : Nat → Nat) (dst src n : Nat) : Nat → Nat :=
  fun x => if dst ≤ x ∧ x < dst + n then m (src + (x - dst)) else m x

/-- Effect of `xcalloc(n, 1)` returning `p`: the `n` bytes from `p` are zero. -/
def xcalloc (m : Nat → Nat) (p n : Nat) : Nat → Nat :=
  fun x => if p ≤ x ∧ x < p + n then 0 else m x

/-- What the embedding assumes of a pointer `p` returned by the underlying
allocator for a request of `n` bytes: it is not null, it is aligned for any
fundamental type, and the region lies in the lower half of the address space. -/
def heap_returns (p n : Nat) : Prop :=
  0 < p ∧ p % 8 = 0 ∧ p < 2 ^ 63 ∧ p + n ≤ 2 ^ 63

instance (p n : Nat) : Decidable (heap_returns p n) := by
  unfold heap_returns; exact inferInstance

/-! ## Checks and alignment helpers -/

/-- The function `sd_check_null_block`. -/
def sd_check_null_block (self : Memory) : Except SdError Unit :=
  if self.data = 0 then .error .NullBlock else .ok ()

/-- The function `sd_check_block_bounds`. -/
def sd_check_block_bounds (self : Memory) (offset size : Nat) : Except SdError Unit :=
  let block_size := self.bytesize
  if offset ≥ block_size then .error .OutOfBounds
  else if wadd offset size > block_size ∨ wadd offset size < offset then .error .OutOfBounds
  else .ok ()

/-- The function `rb_check_frozen`. -/
def rb_check_frozen (self : Memory) : Except SdError Unit :=
  if self.frozen then .error .Frozen else .ok ()

/-- The function `is_power_of_two`. -/
def is_power_of_two (size : Nat) : Bool :=
  ((size &&& wsub size 1) == 0) && (size != 0)

/-- The function `align_size`. -/
def align_size (size alignment : Nat) : Nat :=
  wadd size (wsub alignment 1) &&& wnot (wsub alignment 1)

/-- The function `align_ptr`; the pointer is cast to `intptr_t` first. -/
def align_ptr (ptr alignment : Nat) : Nat :=
  wadd ptr (wsub alignment 1) &&& wnot (wsub alignment 1)

/-! ## Host number boxing (ruby.h, LP64)

A Ruby `Integer` is handed to the extension as a `VALUE` word.  A Fixnum `i`
(`-2 ^ 62 ≤ i < 2 ^ 62`) is the word `2 i + 1`; the conversions below are the
host's, for `Integer` arguments. -/

/-- The macro `INT2FIX(i)` / `LONG2FIX(i)`,
`((VALUE)(((SIGNED_VALUE)(i)) << 1 | FIXNUM_FLAG))`: the `VALUE` word of the
Fixnum `i`. -/
def INT2FIX (i : Int) : Nat := ((2 * i + 1) % 2 ^ 64).toNat

/-- The macro `FIX2LONG(x)`: the `Integer` the Fixnum word `x` denotes (arithmetic shift
right by one of the signed word). -/
def FIX2LONG (x : Nat) : Int := toSigned 8 x / 2

/-- The macro `NUM2UINT(v)` for an `Integer` `v`: `RangeError` below `INT_MIN` or above
`UINT_MAX`, otherwise the value as an `unsigned int`. -/
def NUM2UINT (v : Int) : Except SdError Nat :=
  if v < -(2 ^ 31) ∨ 2 ^ 32 - 1 < v then .error .HostConversion
  else .ok (v % 2 ^ 32).toNat

/-- The macro `UINT2NUM(x)`: the `Integer` equal to the unsigned value `x`. -/
def UINT2NUM (x : Nat) : Int := x

/-- The macro `NUM2LONG(v)` for an `Integer` `v`: `RangeError` outside the range of `long`,
otherwise the value as a `long` (its two's-complement word). -/
def NUM2LONG (v : Int) : Except SdError Nat :=
  if v < -(2 ^ 63) ∨ 2 ^ 63 - 1 < v then .error .HostConversion
  else .ok (v % 2 ^ 64).toNat

/-! ## Scalar kinds -/

/-- One scalar kind of the accessor catalogue: `size` is `sizeof(conv_type_t)`,
`of_num` is `(conv_type_t)SD_NUM_TO_K(sd_value)` as the bit pattern that is
stored, `to_num` is `SD_K_TO_NUM(value)` as the `Integer` that is returned. -/
structure ScalarKind where
  size : Nat
  of_num : Int → Except SdError Nat
  to_num : Nat → Int

/-- The macro `SD_NUM_TO_INT8(X)`: `((int8_t)INT2FIX(X))`, applied to the `VALUE` word of
the Fixnum `sd_value`. -/
def SD_NUM_TO_INT8 (sd_value : Int) : Nat := INT2FIX (INT2FIX sd_value) % 256 ^ 1

/-- The macro `SD_NUM_TO_INT16(X)`: `((int16_t)INT2FIX(X))`. -/
def SD_NUM_TO_INT16 (sd_value : Int) : Nat := INT2FIX (INT2FIX sd_value) % 256 ^ 2

/-- The macro `SD_NUM_TO_INT32(X)`: `((int32_t)INT2FIX(X))`. -/
def SD_NUM_TO_INT32 (sd_value : Int) : Nat := INT2FIX (INT2FIX sd_value) % 256 ^ 4

/-- The macro `SD_INT8_TO_NUM(X)`: `INT2FIX(X)` of the stored `int8_t`, as an `Integer`. -/
def SD_INT8_TO_NUM (value : Nat) : Int := FIX2LONG (INT2FIX (toSigned 1 value))

/-- The macro `SD_INT16_TO_NUM(X)`: `INT2FIX(X)` of the stored `int16_t`. -/
def SD_INT16_TO_NUM (value : Nat) : Int := FIX2LONG (INT2FIX (toSigned 2 value))

/-- The macro `SD_INT32_TO_NUM(X)`: `INT2FIX(X)` of the stored `int32_t`. -/
def SD_INT32_TO_NUM (value : Nat) : Int := FIX2LONG (INT2FIX (toSigned 4 value))

/-- The macro `SD_NUM_TO_UINT8(X)`: `((uint8_t)NUM2UINT(X))`. -/
def SD_NUM_TO_UINT8 (sd_value : Int) : Except SdError Nat :=
  (NUM2UINT sd_value).map (· % 256 ^ 1)

/-- The macro `SD_NUM_TO_UINT16(X)`: `((uint16_t)NUM2UINT(X))`. -/
def SD_NUM_TO_UINT16 (sd_value : Int) : Except SdError Nat :=
  (NUM2UINT sd_value).map (· % 256 ^ 2)

/-- The macro `SD_NUM_TO_UINT32(X)`: `((uint32_t)NUM2UINT(X))`. -/
def SD_NUM_TO_UINT32 (sd_value : Int) : Except SdError Nat :=
  (NUM2UINT sd_value).map (· % 256 ^ 4)

/-- The kind `int8_t`. -/
def int8_t : ScalarKind := ⟨1, fun v => .ok (SD_NUM_TO_INT8 v), SD_INT8_TO_NUM⟩

/-- The kind `int16_t`. -/
def int16_t : ScalarKind := ⟨2, fun v => .ok (SD_NUM_TO_INT16 v), SD_INT16_TO_NUM⟩

/-- The kind `int32_t`. -/
def int32_t : ScalarKind := ⟨4, fun v => .ok (SD_NUM_TO_INT32 v), SD_INT32_TO_NUM⟩

/-- The kind `uint8_t`. -/
def uint8_t : ScalarKind := ⟨1, SD_NUM_TO_UINT8, UINT2NUM⟩

/-- The kind `uint16_t`. -/
def uint16_t : ScalarKind := ⟨2, SD_NUM_TO_UINT16, UINT2NUM⟩

/-- The kind `uint32_t`. -/
def uint32_t : ScalarKind := ⟨4, SD_NUM_TO_UINT32, UINT2NUM⟩

/-- The macro `SD_NUM_TO_LONG(X)`: `((long)NUM2LONG(X))`. -/
def SD_NUM_TO_LONG (sd_value : Int) : Except SdError Nat :=
  (NUM2LONG sd_value).map (· % 256 ^ 8)

/-- The macro `SD_LONG_TO_NUM(X)`: `LONG2FIX(X)` of the stored `long`, as the
`Integer` the resulting `VALUE` word denotes. -/
def SD_LONG_TO_NUM (value : Nat) : Int := FIX2LONG (INT2FIX (toSigned 8 value))

/-- The macro `SD_NUM_TO_PTRDIFF_T(X)` where `SIZEOF_PTRDIFF_T == SIZEOF_LONG`:
`((ptrdiff_t)NUM2LONG(X))`. -/
def SD_NUM_TO_PTRDIFF_T (sd_value : Int) : Except SdError Nat :=
  (NUM2LONG sd_value).map (· % 256 ^ 8)

/-- The macro `SD_PTRDIFF_T_TO_NUM(X)` where `SIZEOF_PTRDIFF_T == SIZEOF_LONG`:
`LONG2FIX(X)`. -/
def SD_PTRDIFF_T_TO_NUM (value : Nat) : Int := FIX2LONG (INT2FIX (toSigned 8 value))

/-- The macro `SD_NUM_TO_INTPTR_T(X)` where `SIZEOF_INTPTR_T == SIZEOF_LONG`:
`((intptr_t)NUM2LONG(X))`. -/
def SD_NUM_TO_INTPTR_T (sd_value : Int) : Except SdError Nat :=
  (NUM2LONG sd_value).map (· % 256 ^ 8)

/-- The macro `SD_INTPTR_T_TO_NUM(X)` where `SIZEOF_INTPTR_T == SIZEOF_LONG`:
`LONG2FIX(X)`. -/
def SD_INTPTR_T_TO_NUM (value : Nat) : Int := FIX2LONG (INT2FIX (toSigned 8 value))

/-- The kind `long`. -/
def long : ScalarKind := ⟨8, SD_NUM_TO_LONG, SD_LONG_TO_NUM⟩

/-- The kind `ptrdiff_t`. -/
def ptrdiff_t : ScalarKind := ⟨8, SD_NUM_TO_PTRDIFF_T, SD_PTRDIFF_T_TO_NUM⟩

/-- The kind `intptr_t`. -/
def intptr_t : ScalarKind := ⟨8, SD_NUM_TO_INTPTR_T, SD_INTPTR_T_TO_NUM⟩

/-! ## Typed accessors

Every `sd_get_K` / `sd_set_K` in the source is the same text up to the kind;
`sd_get` and `sd_set` are that text, with the kind as a parameter. -/

/-- The function `sd_get_K(self, sd_offset)`. -/
def sd_get (K : ScalarKind) (h : Heap) (self : Memory) (offset : Nat) : Except SdError Int :=
  match sd_check_block_bounds self offset K.size with
  | .error e => .error e
  | .ok _ =>
    match sd_check_null_block self with
    | .error e => .error e
    | .ok _ =>
      let value := load h.mem (self.data + offset) K.size
      .ok (K.to_num value)

/-- The function `sd_set_K(self, sd_offset, sd_value)`: the new heap and the returned value. -/
def sd_set (K : ScalarKind) (h : Heap) (self : Memory) (offset : Nat) (sd_value : Int) :
    Except SdError (Heap × Int) :=
  match sd_check_block_bounds self offset K.size with
  | .error e => .error e
  | .ok _ =>
    match sd_check_null_block self with
    | .error e => .error e
    | .ok _ =>
      match rb_check_frozen self with
      | .error e => .error e
      | .ok _ =>
        match K.of_num sd_value with
        | .error e => .error e
        | .ok value =>
          .ok ({ h with mem := store h.mem (self.data + offset) K.size value }, sd_value)

/-- The function `sd_get_int8`. -/
def sd_get_int8 := sd_get int8_t

/-- The function `sd_set_int8`. -/
def sd_set_int8 := sd_set int8_t

/-- The function `sd_get_int16`. -/
def sd_get_int16 := sd_get int16_t

/-- The function `sd_set_int16`. -/
def sd_set_int16 := sd_set int16_t

/-- The function `sd_get_int32`. -/
def sd_get_int32 := sd_get int32_t

/-- The function `sd_set_int32`. -/
def sd_set_int32 := sd_set int32_t

/-- The function `sd_get_uint8`. -/
def sd_get_uint8 := sd_get uint8_t

/-- The function `sd_set_uint8`. -/
def sd_set_uint8 := sd_set uint8_t

/-- The function `sd_get_uint16`. -/
def sd_get_uint16 := sd_get uint16_t

/-- The function `sd_set_uint16`. -/
def sd_set_uint16 := sd_set uint16_t

/-- The function `sd_get_uint32`. -/
def sd_get_uint32 := sd_get uint32_t

/-- The function `sd_set_uint32`. -/
def sd_set_uint32 := sd_set uint32_t

/-- The function `sd_get_ptrdiff_t`. -/
def sd_get_ptrdiff_t := sd_get ptrdiff_t

/-- The function `sd_set_ptrdiff_t`. -/
def sd_set_ptrdiff_t := sd_set ptrdiff_t

/-- The function `sd_get_intptr_t`. -/
def sd_get_intptr_t := sd_get intptr_t

/-- The function `sd_set_intptr_t`. -/
def sd_set_intptr_t := sd_set intptr_t

/-- The function `sd_get_long`. -/
def sd_get_long := sd_get long

/-- The function `sd_set_long`. -/
def sd_set_long := sd_set long

/-! ## Aligned allocator -/

/-- The function `com_malloc(size, alignment)`, with `p` the pointer `xcalloc` returns. The
result is the new heap and the aligned pointer. -/
def com_malloc (h : Heap) (p : Nat) (size alignment : Nat) : Except SdError (Heap × Nat) :=
  let aligned_size := align_size (wadd size 8) alignment
  let zeroed := xcalloc h.mem p aligned_size
  if p = 0 then .error .OutOfMemory
  else
    let aligned_ptr := align_ptr (p + 8) alignment
    .ok ({ h with mem := store zeroed (aligned_ptr - 8) 8 p }, aligned_ptr)

/-- The function `com_free(aligned_ptr)`: hands the back-pointer stored before `aligned_ptr`
to `xfree`. -/
def com_free (h : Heap) (aligned_ptr : Nat) : Except SdError Heap :=
  if aligned_ptr = 0 then .error .InvalidFree
  else .ok { h with released := load h.mem (aligned_ptr - 8) 8 :: h.released }

/-! ## Construction and lifecycle -/

/-- The function `sd_memory_new(address, size, alignment = SIZEOF_VOIDP)` (`Snow::Memory.new`,
also `wrap`). `address` is the pointer after `SD_NUM_TO_INTPTR_T`. -/
def sd_memory_new (h : Heap) (address : Nat) (sd_size sd_alignment : Option Nat) :
    Except SdError (Heap × Memory) :=
  if address = 0 then .error .InvalidArgument
  else
    match sd_size with
    | none => .error .InvalidArgument
    | some size =>
      if size = 0 then .error .InvalidArgument
      else
        let alignment := sd_alignment.getD 8
        .ok (h, { data := address, dfree := false, bytesize := size,
                  alignment := alignment, frozen := false })

/-- The function `sd_memory_malloc(size, alignment = nil)` (`Snow::Memory.malloc`), with `p`
the pointer `xcalloc` returns. -/
def sd_memory_malloc (h : Heap) (p : Nat) (size : Nat) (sd_alignment : Option Nat) :
    Except SdError (Heap × Memory) :=
  let alignment := sd_alignment.getD 8
  if !is_power_of_two alignment then .error .InvalidArgument
  else if size < 1 then .error .InvalidArgument
  else
    match com_malloc h p size alignment with
    | .error e => .error e
    | .ok (h1, data) =>
      .ok (h1, { data := data, dfree := true, bytesize := size,
                 alignment := alignment, frozen := false })

/-- The function `sd_memory_realloc(size, alignment = nil)` (`realloc!`), with `p` the
pointer `xcalloc` returns if the allocator is called. -/
def sd_memory_realloc (h : Heap) (p : Nat) (self : Memory) (size : Nat)
    (sd_alignment : Option Nat) : Except SdError (Heap × Memory) :=
  match rb_check_frozen self with
  | .error e => .error e
  | .ok _ =>
    let prev_align := self.alignment
    let prev_size := self.bytesize
    let alignment := sd_alignment.getD prev_align
    if prev_size = size ∧ alignment = prev_align then .ok (h, self)
    else if !is_power_of_two alignment then .error .InvalidArgument
    else if size < 1 then .error .InvalidArgument
    else
      match com_malloc h p size alignment with
      | .error e => .error e
      | .ok (h1, new_data) =>
        let copy_size := if prev_size > size then size else prev_size
        let h2 : Heap :=
          if self.data ≠ 0 ∧ prev_size > 0 then
            { h1 with mem := memmove h1.mem new_data self.data copy_size }
          else h1
        let freed : Except SdError Heap :=
          if self.dfree then com_free h2 self.data else .ok h2
        match freed with
        | .error e => .error e
        | .ok h3 =>
          .ok (h3, { self with data := new_data, dfree := true, bytesize := size,
                               alignment := alignment })

/-- The function `sd_memory_free` (`free!`). -/
def sd_memory_free (h : Heap) (self : Memory) : Except SdError (Heap × Memory) :=
  match rb_check_frozen self with
  | .error e => .error e
  | .ok _ =>
    if self.data ≠ 0 ∧ self.dfree then
      match com_free h self.data with
      | .error e => .error e
      | .ok h1 => .ok (h1, { self with data := 0, dfree := false, bytesize := 0 })
    else if self.data = 0 then .error .DoubleFree
    else .ok (h, { self with data := 0, bytesize := 0 })

/-- The function `sd_memory_copy(source, destination_offset = nil, source_offset = nil,
byte_size = nil)` (`copy!`). The source is given resolved: `source_pointer` is
the address taken from it, `source_bytesize` its `bytesize` if it responds to
that message. -/
def sd_memory_copy (h : Heap) (self : Memory) (source_pointer : Nat)
    (source_bytesize sd_destination_offset sd_source_offset sd_byte_size : Option Nat) :
    Except SdError (Heap × Memory) :=
  match sd_check_null_block self with
  | .error e => .error e
  | .ok _ =>
    match rb_check_frozen self with
    | .error e => .error e
    | .ok _ =>
      if source_pointer = 0 then .error .InvalidArgument
      else
        let source_offset := sd_source_offset.getD 0
        let destination_offset := sd_destination_offset.getD 0
        let destination_pointer := self.data + destination_offset
        let self_byte_size := self.bytesize
        let source_pointer := source_pointer + source_offset
        if self_byte_size = 0 then .error .RuntimeFault
        else
          let byte_size := match sd_byte_size with
            | some n => n
            | none => wsub self_byte_size destination_offset
          let source_ok : Bool := match source_bytesize with
            | some source_size =>
              !(decide (source_offset > source_size)
                || decide (wadd source_offset byte_size > source_size)
                || decide (wadd source_offset byte_size < source_offset))
            | none => true
          if !source_ok then .error .OutOfBounds
          else if wadd destination_offset byte_size > self_byte_size
              ∨ wadd destination_offset byte_size < destination_offset then .error .OutOfBounds
          else if byte_size = 0 ∨ source_pointer = destination_pointer then .ok (h, self)
          else
            .ok ({ h with mem := memmove h.mem destination_pointer source_pointer byte_size },
                 self)

/-! ## Reachable block states -/

/-- A successful `Snow::Memory.malloc(size, al)` call from heap `h` giving
heap `h1` and block `b`: the arguments are `size_t` values and the allocator
returned `p`. -/
@[irreducible] def malloc_call (h : Heap) (p size : Nat) (al : Option Nat) (h1 : Heap)
    (b : Memory) : Prop :=
  size < 2 ^ 64 ∧ al.getD 8 < 2 ^ 64 ∧
  heap_returns p (align_size (wadd size 8) (al.getD 8)) ∧
  sd_memory_malloc h p size al = .ok (h1, b)

/-- A successful `Snow::Memory.new(address, size, al)` call giving block `b`:
the arguments are `size_t` values. -/
@[irreducible] def wrap_call (h : Heap) (address size : Nat) (al : Option Nat) (h1 : Heap)
    (b : Memory) : Prop :=
  address < 2 ^ 64 ∧ size < 2 ^ 64 ∧ al.getD 8 < 2 ^ 64 ∧
  sd_memory_new h address (some size) al = .ok (h1, b)

/-- A successful `realloc!(size, al)` call on block `b` in heap `h` giving heap
`h1` and block `b1`: the arguments are `size_t` values and the allocator
returned `p`. -/
@[irreducible] def realloc_call (h : Heap) (b : Memory) (p size : Nat) (al : Option Nat)
    (h1 : Heap) (b1 : Memory) : Prop :=
  size < 2 ^ 64 ∧ al.getD b.alignment < 2 ^ 64 ∧
  heap_returns p (align_size (wadd size 8) (al.getD b.alignment)) ∧
  sd_memory_realloc h p b size al = .ok (h1, b1)

/-- The states (heap and block) reachable by a sequence of successful
`malloc`, `new`/`wrap`, `realloc!`, `free!`, typed setter and `copy!` calls.
`W` restricts the alignment argument that `new` is called with. -/
inductive Reachable (W : Option Nat → Prop) : Heap → Memory → Prop where
  | malloc (h : Heap) (p size : Nat) (al : Option Nat) (h1 : Heap) (b : Memory) :
      malloc_call h p size al h1 b → Reachable W h1 b
  | wrap (h : Heap) (address size : Nat) (al : Option Nat) (h1 : Heap) (b : Memory) :
      W al → wrap_call h address size al h1 b → Reachable W h1 b
  | realloc (h : Heap) (b : Memory) (p size : Nat) (al : Option Nat) (h1 : Heap) (b1 : Memory) :
      Reachable W h b → realloc_call h b p size al h1 b1 → Reachable W h1 b1
  | free (h : Heap) (b : Memory) (h1 : Heap) (b1 : Memory) :
      Reachable W h b → sd_memory_free h b = .ok (h1, b1) → Reachable W h1 b1
  | set (h : Heap) (b : Memory) (K : ScalarKind) (offset : Nat) (v : Int) (h1 : Heap) (r : Int) :
      Reachable W h b → sd_set K h b offset v = .ok (h1, r) → Reachable W h1 b
  | copy (h : Heap) (b : Memory) (src : Nat) (sz d s n : Option Nat) (h1 : Heap) (b1 : Memory) :
      Reachable W h b → sd_memory_copy h b src sz d s n = .ok (h1, b1) → Reachable W h1 b1

/-! ## Strings

A Ruby `String` argument is the list of its bytes. -/

/-- Effect of `memcpy` of the first `n` bytes of the host string `s` to `dst`. -/
def write_bytes (m : Nat → Nat) (dst : Nat) (s : List Nat) (n : Nat) : Nat → Nat :=
  fun x => if dst ≤ x ∧ x < dst + n then s.getD (x - dst) 0 % 256 else m x

/-- The macro `StringValueCStr(v)` for a `String` `v`: `ArgumentError` ("string
contains null byte") if a byte of the string is zero, otherwise its bytes. -/
def StringValueCStr (v : List Nat) : Except SdError (List Nat) :=
  if v.any (fun c => c % 256 == 0) then .error .HostConversion else .ok v

/-- The function `rb_str_new(ptr, len)`: the `len` bytes from `ptr`, as a string. -/
def rb_str_new (m : Nat → Nat) (ptr len : Nat) : List Nat :=
  (List.range len).map fun i => m (ptr + i) % 256

/-- The scan loop of `sd_get_string`,
`for (...; length < self_length && data[length]; ++length)`, from the given
value of `length`; the first argument bounds the number of iterations. -/
def scan_nul (m : Nat → Nat) (data self_length : Nat) : Nat → Nat → Nat
  | 0, length => length
  | fuel + 1, length =>
    if length < self_length ∧ m (data + length) % 256 ≠ 0 then
      scan_nul m data self_length fuel (length + 1)
    else length

/-- The function `sd_get_string(offset, length = nil)`. -/
def sd_get_string (h : Heap) (self : Memory) (offset : Nat) (sd_length : Option Nat) :
    Except SdError (List Nat) :=
  let self_length := self.bytesize
  let data := self.data
  match sd_check_null_block self with
  | .error e => .error e
  | .ok _ =>
    if offset ≥ self_length then .ok []
    else
      let length := match sd_length with
        | some length =>
          if length = 2 ^ 64 - 1 ∨ wadd offset length > self_length
              ∨ wadd offset length < offset then
            wsub self_length offset
          else length
        | none =>
          wsub (scan_nul h.mem data self_length (self_length - offset) offset) offset
      .ok (rb_str_new h.mem (data + offset) length)

/-- The function `sd_memory_to_s(null_terminated = true)` (`to_s`). The argument
is `none` when it is omitted or `nil`, otherwise whether it is truthy. -/
def sd_memory_to_s (h : Heap) (self : Memory) (null_terminated : Option Bool) :
    Except SdError (List Nat) :=
  let byte_size := self.bytesize
  let data := self.data
  match sd_check_null_block self with
  | .error e => .error e
  | .ok _ =>
    let byte_size :=
      if null_terminated = none ∨ null_terminated = some true then
        scan_nul h.mem data byte_size byte_size 0
      else byte_size
    .ok (rb_str_new h.mem data byte_size)

/-- The function `sd_align_size(size_or_offset, alignment = nil)`
(`Snow::Memory.align_size`). -/
def sd_align_size (sd_size : Nat) (sd_alignment : Option Nat) : Except SdError Nat :=
  match sd_alignment with
  | some alignment =>
    if !is_power_of_two alignment then .error .InvalidArgument
    else .ok (align_size sd_size alignment)
  | none => .ok (align_size sd_size 8)

/-! ## Calls with the state at exit

The functions above give no state when a call raises.  The `_run` forms are the
same source text with every store in program order; they give the heap and the
block as they are when the call returns or raises. -/

/-- The heap and the block when a call is left, and what the call returned or raised. -/
structure Outcome (α : Type) where
  heap : Heap
  self : Memory
  result : Except SdError α

/-- The result of a call together with the heap it leaves, when it returns. -/
def Outcome.value {α : Type} (o : Outcome α) : Except SdError (Heap × α) :=
  match o.result with
  | .error e => .error e
  | .ok v => .ok (o.heap, v)

/-- The heap and block a call leaves, when it returns. -/
def Outcome.state {α : Type} (o : Outcome α) : Except SdError (Heap × Memory) :=
  match o.result with
  | .error e => .error e
  | .ok _ => .ok (o.heap, o.self)

/-- The function `sd_get_K(self, sd_offset)`, with the state at exit. -/
def sd_get_run (K : ScalarKind) (h : Heap) (self : Memory) (offset : Nat) : Outcome Int :=
  match sd_check_block_bounds self offset K.size with
  | .error e => ⟨h, self, .error e⟩
  | .ok _ =>
    match sd_check_null_block self with
    | .error e => ⟨h, self, .error e⟩
    | .ok _ =>
      let value := load h.mem (self.data + offset) K.size
      ⟨h, self, .ok (K.to_num value)⟩

/-- The function `sd_set_K(self, sd_offset, sd_value)`, with the state at exit. -/
def sd_set_run (K : ScalarKind) (h : Heap) (self : Memory) (offset : Nat) (sd_value : Int) :
    Outcome Int :=
  match sd_check_block_bounds self offset K.size with
  | .error e => ⟨h, self, .error e⟩
  | .ok _ =>
    match sd_check_null_block self with
    | .error e => ⟨h, self, .error e⟩
    | .ok _ =>
      match rb_check_frozen self with
      | .error e => ⟨h, self, .error e⟩
      | .ok _ =>
        match K.of_num sd_value with
        | .error e => ⟨h, self, .error e⟩
        | .ok value =>
          ⟨{ h with mem := store h.mem (self.data + offset) K.size value }, self, .ok sd_value⟩

/-- The functions `sd_set_string(offset, value, null_terminated = false)` and
`sd_set_string_nullterm`, with the state at exit. -/
def sd_set_string_run (h : Heap) (self : Memory) (offset : Nat) (sd_value : List Nat)
    (sd_null_terminated : Bool) : Outcome (List Nat) :=
  match sd_check_null_block self with
  | .error e => ⟨h, self, .error e⟩
  | .ok _ =>
    match rb_check_frozen self with
    | .error e => ⟨h, self, .error e⟩
    | .ok _ =>
      let null_terminated := if sd_null_terminated then 1 else 0
      match StringValueCStr sd_value with
      | .error e => ⟨h, self, .error e⟩
      | .ok string_data =>
        let length := wsub self.bytesize null_terminated
        let str_length := sd_value.length
        if offset ≥ length then ⟨h, self, .ok sd_value⟩
        else
          let length := wsub length offset
          let length := if str_length < length then str_length else length
          let h1 : Heap :=
            if length > 0 then
              { h with mem := write_bytes h.mem (self.data + offset) string_data length }
            else h
          let h2 : Heap :=
            if sd_null_terminated then
              { h1 with mem := store h1.mem (self.data + (offset + length)) 1 0 }
            else h1
          ⟨h2, self, .ok sd_value⟩

/-- The function `sd_set_string`: the new heap and the returned value. -/
def sd_set_string (h : Heap) (self : Memory) (offset : Nat) (sd_value : List Nat)
    (sd_null_terminated : Bool) : Except SdError (Heap × List Nat) :=
  (sd_set_string_run h self offset sd_value sd_null_terminated).value

/-- The function `sd_memory_realloc`, with the state at exit. -/
def sd_memory_realloc_run (h : Heap) (p : Nat) (self : Memory) (size : Nat)
    (sd_alignment : Option Nat) : Outcome Unit :=
  match rb_check_frozen self with
  | .error e => ⟨h, self, .error e⟩
  | .ok _ =>
    let prev_align := self.alignment
    let prev_size := self.bytesize
    let alignment := sd_alignment.getD prev_align
    if prev_size = size ∧ alignment = prev_align then ⟨h, self, .ok ()⟩
    else if !is_power_of_two alignment then ⟨h, self, .error .InvalidArgument⟩
    else if size < 1 then ⟨h, self, .error .InvalidArgument⟩
    else
      match com_malloc h p size alignment with
      | .error e => ⟨h, self, .error e⟩
      | .ok (h1, new_data) =>
        let copy_size := if prev_size > size then size else prev_size
        let h2 : Heap :=
          if self.data ≠ 0 ∧ prev_size > 0 then
            { h1 with mem := memmove h1.mem new_data self.data copy_size }
          else h1
        let freed : Except SdError Heap :=
          if self.dfree then com_free h2 self.data else .ok h2
        match freed with
        | .error e => ⟨h2, self, .error e⟩
        | .ok h3 =>
          ⟨h3, { self with data := new_data, dfree := true, bytesize := size,
                           alignment := alignment }, .ok ()⟩

/-- The function `sd_memory_free`, with the state at exit. -/
def sd_memory_free_run (h : Heap) (self : Memory) : Outcome Unit :=
  match rb_check_frozen self with
  | .error e => ⟨h, self, .error e⟩
  | .ok _ =>
    if self.data ≠ 0 ∧ self.dfree then
      match com_free h self.data with
      | .error e => ⟨h, self, .error e⟩
      | .ok h1 => ⟨h1, { self with data := 0, dfree := false, bytesize := 0 }, .ok ()⟩
    else if self.data = 0 then ⟨h, self, .error .DoubleFree⟩
    else ⟨h, { self with data := 0, bytesize := 0 }, .ok ()⟩

/-- The function `sd_memory_copy`, with the state at exit. -/
def sd_memory_copy_run (h : Heap) (self : Memory) (source_pointer : Nat)
    (source_bytesize sd_destination_offset sd_source_offset sd_byte_size : Option Nat) :
    Outcome Unit :=
  match sd_check_null_block self with
  | .error e => ⟨h, self, .error e⟩
  | .ok _ =>
    match rb_check_frozen self with
    | .error e => ⟨h, self, .error e⟩
    | .ok _ =>
      if source_pointer = 0 then ⟨h, self, .error .InvalidArgument⟩
      else
        let source_offset := sd_source_offset.getD 0
        let destination_offset := sd_destination_offset.getD 0
        let destination_pointer := self.data + destination_offset
        let self_byte_size := self.bytesize
        let source_pointer := source_pointer + source_offset
        if self_byte_size = 0 then ⟨h, self, .error .RuntimeFault⟩
        else
          let byte_size := match sd_byte_size with
            | some n => n
            | none => wsub self_byte_size destination_offset
          let source_ok : Bool := match source_bytesize with
            | some source_size =>
              !(decide (source_offset > source_size)
                || decide (wadd source_offset byte_size > source_size)
                || decide (wadd source_offset byte_size < source_offset))
            | none => true
          if !source_ok then ⟨h, self, .error .OutOfBounds⟩
          else if wadd destination_offset byte_size > self_byte_size
              ∨ wadd destination_offset byte_size < destination_offset then
            ⟨h, self, .error .OutOfBounds⟩
          else if byte_size = 0 ∨ source_pointer = destination_pointer then ⟨h, self, .ok ()⟩
          else
            ⟨{ h with mem := memmove h.mem destination_pointer source_pointer byte_size },
             self, .ok ()⟩

/-! ## Sample states -/

/-- A heap in which every byte holds `0xFF` and nothing has been released. -/
def heap_ff : Heap := ⟨fun _ => 255, []⟩

/-- An 8-byte block wrapping address `4096` (`Snow::Memory.new(4096, 8)`). -/
def wrapped8 : Memory := ⟨4096, false, 8, 8, false⟩

/-- The block that `free!` leaves: null address, zero size. -/
def freed8 : Memory := ⟨0, false, 0, 8, false⟩

/-- A 4-byte block wrapping address `4096` with alignment 3
(`Snow::Memory.new(4096, 4, 3)`). -/
def wrapped_align3 : Memory := ⟨4096, false, 4, 3, false⟩

/-- A heap in which the byte at address `x` holds `x mod 256`; the bytes from
`4096` on read `0, 1, 2, ...`. -/
def heap_pattern : Heap := ⟨fun x => x % 256, []⟩

/-- A 10-byte block wrapping address `4096`. -/
def wrapped10 : Memory := ⟨4096, false, 10, 8, false⟩

/-- A 16-byte block wrapping address `4096`. -/
def wrapped16 : Memory := ⟨4096, false, 16, 8, false⟩

/-- The 8-byte block at `4096`, frozen. -/
def frozen8 : Memory := ⟨4096, false, 8, 8, true⟩

/-- The block `Snow::Memory.malloc(8)` returns when the allocator returns `8192`. -/
def owned8 : Memory := ⟨8200, true, 8, 8, false⟩

/-- The heap that `Snow::Memory.malloc(8)` leaves when it starts from `heap_ff` and
the allocator returns `8192`: 16 zeroed bytes from `8192`, the first 8 of them
then holding the back-pointer `8192`. -/
def heap_owned8 : Heap := ⟨store (xcalloc heap_ff.mem 8192 16) 8192 8 8192, []⟩

/-- A heap whose 8 bytes from `4096` are `hi\0world` (`104 105 0 119 111 114 108
100`); every other byte holds `0xFF`. -/
def heap_hi_world : Heap :=
  ⟨fun x => if 4096 ≤ x then [104, 105, 0, 119, 111, 114, 108, 100].getD (x - 4096) 255 else 255,
   []⟩

/-- A 4-byte block wrapping address `4096`. -/
def wrapped4 : Memory := ⟨4096, false, 4, 8, false⟩

/-- A block record with a non-null address and size 0; no call sequence produces it. -/
def empty_at_4096 : Memory := ⟨4096, false, 0, 8, false⟩

/-! ## Word and bit lemmas -/

theorem wadd_eq_of_lt {a b : Nat} (h : a + b < 2 ^ 64) : wadd a b = a + b := by
  unfold wadd; exact Nat.mod_eq_of_lt h

theorem wsub_one_eq {a : Nat} (h0 : 0 < a) (h : a < 2 ^ 64) : wsub a 1 = a - 1 := by
  unfold wsub
  rw [Nat.mod_eq_of_lt h, Nat.mod_eq_of_lt (by norm_num : 1 < 2 ^ 64)]
  have : a + 2 ^ 64 - 1 = (a - 1) + 2 ^ 64 := by omega
  rw [this, Nat.add_mod_right, Nat.mod_eq_of_lt (by omega)]

theorem wnot_eq {a : Nat} (h : a < 2 ^ 64) : wnot a = 2 ^ 64 - 1 - a := by
  unfold wnot
  rw [Nat.mod_eq_of_lt h]

theorem wadd_lt (a b : Nat) : wadd a b < 2 ^ 64 := by
  unfold wadd
  exact Nat.mod_lt _ (by norm_num)

theorem two_pow_lt_word {k : Nat} (hk : k < 64) : 2 ^ k < 2 ^ 64 :=
  Nat.pow_lt_pow_right (by norm_num) hk

theorem two_pow_le_half {k : Nat} (hk : k < 64) : 2 ^ k ≤ 2 ^ 63 :=
  Nat.pow_le_pow_right (by norm_num) (by omega)

/-- The mask `~(2 ^ k - 1)` of the alignment helpers, as a product. -/
theorem mask_eq {k : Nat} (hk : k < 64) :
    wnot (wsub (2 ^ k) 1) = 2 ^ k * (2 ^ (64 - k) - 1) := by
  have hlt := two_pow_lt_word hk
  have hpos : 0 < 2 ^ k := Nat.two_pow_pos k
  rw [wsub_one_eq hpos hlt, wnot_eq (by omega)]
  have hsplit : 2 ^ 64 = 2 ^ k * 2 ^ (64 - k) := by
    rw [← Nat.pow_add]; congr 1; omega
  rw [Nat.mul_sub, Nat.mul_one, ← hsplit]
  omega

/-- Masking a 64-bit word with `~(2 ^ k - 1)` rounds it down to a multiple of `2 ^ k`. -/
theorem and_mask_eq {k y : Nat} (hk : k < 64) (hy : y < 2 ^ 64) :
    y &&& wnot (wsub (2 ^ k) 1) = 2 ^ k * (y / 2 ^ k) := by
  rw [mask_eq hk]
  apply Nat.eq_of_testBit_eq
  intro i
  rw [Nat.testBit_and, Nat.testBit_mul_pow_two, Nat.testBit_mul_pow_two,
    Nat.testBit_two_pow_sub_one]
  by_cases hik : i ≥ k
  · have h2 : (y / 2 ^ k).testBit (i - k) = y.testBit i := by
      have hsum : k + (i - k) = i := by omega
      rw [Nat.testBit_to_div_mod, Nat.testBit_to_div_mod (x := y), Nat.div_div_eq_div_mul,
        ← Nat.pow_add, hsum]
    by_cases hi : i < 64
    · have h1 : i - k < 64 - k := by omega
      simp [hik, h1, h2]
    · have h1 : ¬ i - k < 64 - k := by omega
      have hyi : y.testBit i = false :=
        Nat.testBit_lt_two_pow (Nat.lt_of_lt_of_le hy (Nat.pow_le_pow_right (by norm_num) (by omega)))
      simp [hyi, h2]
  · simp [hik]

/-- The function `is_power_of_two` accepts every power of two that fits a `size_t`. -/
theorem is_power_of_two_two_pow {k : Nat} (hk : k < 64) : is_power_of_two (2 ^ k) = true := by
  have hlt := two_pow_lt_word hk
  have hpos : 0 < 2 ^ k := Nat.two_pow_pos k
  unfold is_power_of_two
  rw [wsub_one_eq hpos hlt, Nat.and_pow_two_sub_one_eq_mod, Nat.mod_self]
  simp

/-- A `size_t` that `is_power_of_two` accepts is a power of two. -/
theorem two_pow_of_is_power_of_two {a : Nat} (ha : a < 2 ^ 64) (h : is_power_of_two a = true) :
    ∃ k, k < 64 ∧ a = 2 ^ k := by
  unfold is_power_of_two at h
  simp only [Bool.and_eq_true, beq_iff_eq, bne_iff_ne, ne_eq] at h
  obtain ⟨hand, hne⟩ := h
  have hpos : 0 < a := Nat.pos_of_ne_zero hne
  rw [wsub_one_eq hpos ha] at hand
  refine ⟨a.log2, ?_, ?_⟩
  · exact (Nat.log2_lt hne).2 ha
  · have hle : 2 ^ a.log2 ≤ a := Nat.log2_self_le hne
    have hlt : a < 2 ^ (a.log2 + 1) := Nat.lt_log2_self
    by_contra hneq
    have hgt : 2 ^ a.log2 ≤ a - 1 := by omega
    have hdiv : ∀ x, 2 ^ a.log2 ≤ x → x < 2 ^ (a.log2 + 1) → x.testBit a.log2 = true := by
      intro x h1 h2
      rw [Nat.testBit_to_div_mod]
      have : x / 2 ^ a.log2 = 1 := by
        apply Nat.div_eq_of_lt_le
        · simpa using h1
        · rw [Nat.pow_succ] at h2; omega
      simp [this]
    have hbit : (a &&& (a - 1)).testBit a.log2 = true := by
      rw [Nat.testBit_and, hdiv a hle hlt, hdiv (a - 1) hgt (by omega)]
      rfl
    rw [hand] at hbit
    simp at hbit

/-- The aligned value is a multiple of the alignment. -/
theorem align_ptr_mod {k : Nat} (hk : k < 64) (ptr : Nat) :
    align_ptr ptr (2 ^ k) % 2 ^ k = 0 := by
  unfold align_ptr
  rw [and_mask_eq hk (wadd_lt _ _)]
  exact Nat.mul_mod_right _ _

/-- Without wrap-around the aligned value is not below the argument. -/
theorem le_align_ptr {k : Nat} (hk : k < 64) {ptr : Nat} (hp : ptr ≤ 2 ^ 63) :
    ptr ≤ align_ptr ptr (2 ^ k) := by
  have hlt := two_pow_lt_word hk
  have hle := two_pow_le_half hk
  have hpos : 0 < 2 ^ k := Nat.two_pow_pos k
  unfold align_ptr
  rw [and_mask_eq hk (wadd_lt _ _), wsub_one_eq hpos hlt, wadd_eq_of_lt (by omega)]
  have h1 := Nat.div_add_mod (ptr + (2 ^ k - 1)) (2 ^ k)
  have h2 := Nat.mod_lt (ptr + (2 ^ k - 1)) hpos
  omega

/-! ## Bounds check -/

/-- C1: for a block of size `N` and 64-bit `offset` and width `s ≥ 1`,
`sd_check_block_bounds` passes exactly when `offset + s ≤ N` in unbounded
integers, and otherwise raises `OutOfBounds`; so the access at `N - s` passes
and the access at `N - s + 1` is rejected. -/
theorem sd_check_block_bounds_iff (self : Memory) (offset s : Nat)
    (hN : self.bytesize < 2 ^ 64) (ho : offset < 2 ^ 64) (hs : s < 2 ^ 64) (h1 : 1 ≤ s) :
    (sd_check_block_bounds self offset s = .ok () ↔ offset + s ≤ self.bytesize) ∧
    (¬ offset + s ≤ self.bytesize → sd_check_block_bounds self offset s = .error .OutOfBounds) ∧
    (s ≤ self.bytesize →
      sd_check_block_bounds self (self.bytesize - s) s = .ok () ∧
      sd_check_block_bounds self (self.bytesize - s + 1) s = .error .OutOfBounds) := by
  have key : ∀ o : Nat, o < 2 ^ 64 →
      (sd_check_block_bounds self o s = .ok () ↔ o + s ≤ self.bytesize) ∧
      (¬ o + s ≤ self.bytesize → sd_check_block_bounds self o s = .error .OutOfBounds) := by
    intro o ho
    unfold sd_check_block_bounds
    dsimp only
    by_cases hwrap : o + s < 2 ^ 64
    · rw [wadd_eq_of_lt hwrap]
      constructor
      · constructor
        · intro h
          split at h
          · cases h
          · split at h
            · cases h
            · omega
        · intro h
          rw [if_neg (by omega), if_neg (by omega)]
      · intro h
        by_cases h2 : o ≥ self.bytesize
        · rw [if_pos h2]
        · rw [if_neg h2, if_pos (by omega)]
    · have hw : wadd o s = o + s - 2 ^ 64 := by
        unfold wadd
        rw [Nat.mod_eq_sub_mod (by omega), Nat.mod_eq_of_lt (by omega)]
      rw [hw]
      constructor
      · constructor
        · intro h
          split at h
          · cases h
          · split at h
            · cases h
            · omega
        · intro h
          omega
      · intro _
        by_cases h2 : o ≥ self.bytesize
        · rw [if_pos h2]
        · rw [if_neg h2, if_pos (by omega)]
  refine ⟨(key offset ho).1, (key offset ho).2, ?_⟩
  intro hle
  refine ⟨((key (self.bytesize - s) (by omega)).1).2 (by omega), ?_⟩
  exact (key (self.bytesize - s + 1) (by omega)).2 (by omega)

/-- Witness for C1: a block of 8 bytes and a 4-byte access; offset 4 passes,
offset 5 is rejected. -/
theorem sd_check_block_bounds_iff_witness :
    (sd_check_block_bounds wrapped8 4 4 = .ok () ↔ 4 + 4 ≤ wrapped8.bytesize) ∧
    sd_check_block_bounds wrapped8 (wrapped8.bytesize - 4) 4 = .ok () ∧
    sd_check_block_bounds wrapped8 (wrapped8.bytesize - 4 + 1) 4 = .error .OutOfBounds :=
  have t := sd_check_block_bounds_iff wrapped8 4 4 (by decide) (by norm_num) (by norm_num)
    (by norm_num)
  ⟨t.1, (t.2.2 (by decide)).1, (t.2.2 (by decide)).2⟩

/-! ## Typed accessors -/

theorem load_store_shift (m : Nat → Nat) (a n v : Nat) :
    ∀ w j, j + w ≤ n → load (store m a n v) (a + j) w = v / 256 ^ j % 256 ^ w := by
  intro w
  induction w with
  | zero => intro j _; simp [load, Nat.mod_one]
  | succ w ih =>
    intro j hj
    have hrec := ih (j + 1) (by omega)
    have hbyte : store m a n v (a + j) = v / 256 ^ j % 256 := by
      unfold store
      rw [if_pos (by omega), Nat.add_sub_cancel_left]
    rw [load, hbyte, Nat.add_assoc, hrec, Nat.mod_mod, Nat.pow_succ 256 j,
      ← Nat.div_div_eq_div_mul, Nat.pow_succ 256 w, Nat.mul_comm (256 ^ w) 256, Nat.mod_mul]

/-- Reading back the `w` bytes just written gives the value truncated to `w` bytes. -/
theorem load_store (m : Nat → Nat) (a w v : Nat) :
    load (store m a w v) a w = v % 256 ^ w := by
  have h := load_store_shift m a w v w 0 (by omega)
  simpa using h

theorem sd_check_block_bounds_ok {self : Memory} {offset s : Nat}
    (hN : self.bytesize < 2 ^ 64) (h1 : 1 ≤ s) (hle : offset + s ≤ self.bytesize) :
    sd_check_block_bounds self offset s = .ok () := by
  unfold sd_check_block_bounds
  dsimp only
  rw [wadd_eq_of_lt (by omega), if_neg (by omega), if_neg (by omega)]

/-- On a live, unfrozen block and an in-bounds offset, `sd_set` stores the
converted bits and returns its argument. -/
theorem sd_set_ok (K : ScalarKind) (h : Heap) (self : Memory) (offset : Nat) (v : Int)
    (bits : Nat) (hlive : self.data ≠ 0) (hmut : self.frozen = false)
    (hN : self.bytesize < 2 ^ 64) (hw : 1 ≤ K.size) (hle : offset + K.size ≤ self.bytesize)
    (hconv : K.of_num v = .ok bits) :
    sd_set K h self offset v =
      .ok ({ h with mem := store h.mem (self.data + offset) K.size bits }, v) := by
  unfold sd_set
  rw [sd_check_block_bounds_ok hN hw hle]
  simp [sd_check_null_block, rb_check_frozen, hlive, hmut, hconv]

/-- On a live block and an in-bounds offset, `sd_get` boxes the bytes at the offset. -/
theorem sd_get_ok (K : ScalarKind) (h : Heap) (self : Memory) (offset : Nat)
    (hlive : self.data ≠ 0) (hN : self.bytesize < 2 ^ 64) (hw : 1 ≤ K.size)
    (hle : offset + K.size ≤ self.bytesize) :
    sd_get K h self offset = .ok (K.to_num (load h.mem (self.data + offset) K.size)) := by
  unfold sd_get
  rw [sd_check_block_bounds_ok hN hw hle]
  simp [sd_check_null_block, hlive]

/-- C2 (defect): on every heap, `set_int8(0, 1)` on a live 8-byte block followed
by `get_int8(0)` returns 7, not 1, and likewise for `int16` and `int32`: the
setters store `INT2FIX` of the boxed argument. -/
theorem set_int_get_int_of_one (h : Heap) :
    ((sd_set_int8 h wrapped8 0 1).bind fun r => sd_get_int8 r.1 wrapped8 0) = .ok 7 ∧
    ((sd_set_int16 h wrapped8 0 1).bind fun r => sd_get_int16 r.1 wrapped8 0) = .ok 7 ∧
    ((sd_set_int32 h wrapped8 0 1).bind fun r => sd_get_int32 r.1 wrapped8 0) = .ok 7 := by
  refine ⟨?_, ?_, ?_⟩
  · unfold sd_set_int8 sd_get_int8
    rw [sd_set_ok int8_t h wrapped8 0 1 7 (by decide) rfl (by decide) (by decide) (by decide)
      (by decide)]
    simp only [Except.bind]
    rw [sd_get_ok int8_t _ wrapped8 0 (by decide) (by decide) (by decide) (by decide)]
    simp only [load_store]
    decide
  · unfold sd_set_int16 sd_get_int16
    rw [sd_set_ok int16_t h wrapped8 0 1 7 (by decide) rfl (by decide) (by decide) (by decide)
      (by decide)]
    simp only [Except.bind]
    rw [sd_get_ok int16_t _ wrapped8 0 (by decide) (by decide) (by decide) (by decide)]
    simp only [load_store]
    decide
  · unfold sd_set_int32 sd_get_int32
    rw [sd_set_ok int32_t h wrapped8 0 1 7 (by decide) rfl (by decide) (by decide) (by decide)
      (by decide)]
    simp only [Except.bind]
    rw [sd_get_ok int32_t _ wrapped8 0 (by decide) (by decide) (by decide) (by decide)]
    simp only [load_store]
    decide

/-- C3 (counterexample): `set_uint8(0, 300)` on a live 8-byte block returns 300,
while `get_uint8(0)` immediately afterwards returns 44; the returned value is
not the narrowed value that was written. -/
theorem set_uint8_returns_unnarrowed :
    (sd_set_uint8 heap_ff wrapped8 0 300).map Prod.snd = .ok 300 ∧
    ((sd_set_uint8 heap_ff wrapped8 0 300).bind fun r => sd_get_uint8 r.1 wrapped8 0) = .ok 44 ∧
    (sd_set_uint8 heap_ff wrapped8 0 300).map Prod.snd ≠
      ((sd_set_uint8 heap_ff wrapped8 0 300).bind fun r => sd_get_uint8 r.1 wrapped8 0) := by
  decide

/-- C3 (amended): for every scalar kind, live mutable block, in-bounds offset and
value `v` that the kind's conversion accepts as the bit pattern `bits`,
`set_K(offset, v)` succeeds and returns its argument `v` unchanged, and
`get_K(offset)` immediately afterwards returns the boxed value of `bits`
truncated to the width of the kind. -/
theorem sd_set_returns_argument (K : ScalarKind) (h : Heap) (self : Memory) (offset : Nat)
    (v : Int) (bits : Nat) (hlive : self.data ≠ 0) (hmut : self.frozen = false)
    (hN : self.bytesize < 2 ^ 64) (hw : 1 ≤ K.size) (hle : offset + K.size ≤ self.bytesize)
    (hconv : K.of_num v = .ok bits) :
    (sd_set K h self offset v).map Prod.snd = .ok v ∧
    ((sd_set K h self offset v).bind fun r => sd_get K r.1 self offset)
      = .ok (K.to_num (bits % 256 ^ K.size)) := by
  rw [sd_set_ok K h self offset v bits hlive hmut hN hw hle hconv]
  refine ⟨rfl, ?_⟩
  simp only [Except.bind]
  rw [sd_get_ok K _ self offset hlive hN hw hle]
  simp only [load_store]

/-- Witness for C3: `uint8_t`, value 300, whose conversion gives the byte 44. -/
theorem sd_set_returns_argument_witness :
    (sd_set uint8_t heap_ff wrapped8 0 300).map Prod.snd = .ok 300 ∧
    ((sd_set uint8_t heap_ff wrapped8 0 300).bind fun r => sd_get uint8_t r.1 wrapped8 0)
      = .ok (uint8_t.to_num (44 % 256 ^ uint8_t.size)) :=
  sd_set_returns_argument uint8_t heap_ff wrapped8 0 300 44 (by decide) rfl (by decide)
    (by decide) (by decide) (by decide)

/-- C4 (defect): `free!` on a live block leaves a null address and size 0, and
on that block every typed getter and setter, at every offset, raises
`OutOfBounds` rather than `NullBlock`: the bounds check runs before the null
check. -/
theorem typed_access_after_free (h : Heap) (K : ScalarKind) (offset : Nat) (v : Int) :
    sd_memory_free h wrapped8 = .ok (h, freed8) ∧ freed8.data = 0 ∧
    sd_get K h freed8 offset = .error .OutOfBounds ∧
    sd_set K h freed8 offset v = .error .OutOfBounds := by
  refine ⟨rfl, rfl, ?_, ?_⟩
  · simp [sd_get, sd_check_block_bounds, freed8]
  · simp [sd_set, sd_check_block_bounds, freed8]

/-- C5 (defect): for `size = 8`, `alignment = 16` and the 16-byte-aligned base
address `4096`, `com_malloc` requests 16 bytes and returns `4112`, the end of
the allocation: the `size` usable bytes lie wholly outside `[p, p + padded)`. -/
theorem com_malloc_payload_outside (h : Heap) :
    heap_returns 4096 (align_size (wadd 8 8) 16) ∧
    align_size (wadd 8 8) 16 = 16 ∧
    (com_malloc h 4096 8 16).map Prod.snd = .ok 4112 ∧
    ¬ (4112 + 8 ≤ 4096 + align_size (wadd 8 8) 16) := by
  refine ⟨by decide, by decide, ?_, by decide⟩
  have hq : align_ptr (4096 + 8) 16 = 4112 := by decide
  simp only [com_malloc, Except.map, hq]
  rfl

/-! ## Construction -/

/-- What a successful `sd_memory_malloc` call did. -/
theorem sd_memory_malloc_inv {h : Heap} {p size : Nat} {al : Option Nat} {h1 : Heap}
    {b : Memory} (hc : sd_memory_malloc h p size al = .ok (h1, b)) :
    is_power_of_two (al.getD 8) = true ∧ 1 ≤ size ∧ p ≠ 0 ∧
    b = ⟨align_ptr (p + 8) (al.getD 8), true, size, al.getD 8, false⟩ := by
  unfold sd_memory_malloc com_malloc at hc
  dsimp only at hc
  by_cases hpow : is_power_of_two (al.getD 8) = true
  · by_cases hs : size < 1
    · simp [hpow, hs] at hc
    · by_cases hp : p = 0
      · simp [hpow, hs, hp] at hc
      · simp [hpow, hs, hp] at hc
        exact ⟨hpow, by omega, hp, hc.2.symm⟩
  · simp [hpow] at hc

/-- The function `sd_memory_malloc` succeeds on a valid request when the allocator does. -/
theorem sd_memory_malloc_ok (h : Heap) {p size : Nat} (al : Option Nat)
    (hpow : is_power_of_two (al.getD 8) = true) (hs : 1 ≤ size) (hp : p ≠ 0) :
    ∃ h1, sd_memory_malloc h p size al =
      .ok (h1, ⟨align_ptr (p + 8) (al.getD 8), true, size, al.getD 8, false⟩) := by
  unfold sd_memory_malloc com_malloc
  dsimp only
  have hs' : ¬ size < 1 := by omega
  simp [hpow, hs', hp]

/-- C6: for every size of at least 1, every power-of-two alignment `2 ^ k` that
fits a `size_t` and every non-null base address, `malloc(size, 2 ^ k)` returns a
block whose address is a multiple of `2 ^ k`; and `malloc(size, 3)` raises
`InvalidArgument`. -/
theorem sd_memory_malloc_aligned (h : Heap) (p size k : Nat) (hp : p ≠ 0) (hs : 1 ≤ size)
    (hk : k < 64) :
    (∃ h1 b, sd_memory_malloc h p size (some (2 ^ k)) = .ok (h1, b) ∧ b.data % 2 ^ k = 0) ∧
    sd_memory_malloc h p size (some 3) = .error .InvalidArgument := by
  constructor
  · obtain ⟨h1, hok⟩ := sd_memory_malloc_ok h (some (2 ^ k)) (is_power_of_two_two_pow hk) hs hp
    exact ⟨h1, _, hok, align_ptr_mod hk _⟩
  · have h3 : is_power_of_two 3 = false := by decide
    simp [sd_memory_malloc, h3]

/-- Witness for C6: 5 bytes aligned to 4096 from the base address 4112. -/
theorem sd_memory_malloc_aligned_witness :
    (∃ h1 b, sd_memory_malloc heap_ff 4112 5 (some (2 ^ 12)) = .ok (h1, b) ∧
      b.data % 2 ^ 12 = 0) ∧
    sd_memory_malloc heap_ff 4112 5 (some 3) = .error .InvalidArgument :=
  sd_memory_malloc_aligned heap_ff 4112 5 12 (by decide) (by decide) (by decide)

/-- The function `sd_memory_malloc` raises `InvalidArgument` exactly on a size
below 1 or an alignment that `is_power_of_two` rejects. -/
theorem sd_memory_malloc_invalid_iff (h : Heap) (p size : Nat) (al : Option Nat) :
    sd_memory_malloc h p size al = .error .InvalidArgument ↔
      (size < 1 ∨ is_power_of_two (al.getD 8) = false) := by
  unfold sd_memory_malloc com_malloc
  dsimp only
  by_cases hpow : is_power_of_two (al.getD 8) = true
  · by_cases hs : size < 1
    · simp [hpow, hs]
    · by_cases hp : p = 0
      · simp [hpow, hs, hp]
      · simp [hpow, hs, hp]
  · simp [hpow]

/-- C7 (defect): `malloc(8, 16)` with the allocator returning the base address
`4096` yields the block at `4112` of size 8, past the 16 zero-initialised
bytes: on every heap the block's first byte is the byte the heap already held
at `4112`, and on a heap full of `0xFF` it reads `255`, not `0`. -/
theorem sd_memory_malloc_not_zeroed (h : Heap) :
    heap_returns 4096 (align_size (wadd 8 8) 16) ∧
    (sd_memory_malloc h 4096 8 (some 16)).map Prod.snd = .ok ⟨4112, true, 8, 16, false⟩ ∧
    (sd_memory_malloc h 4096 8 (some 16)).map (fun r => r.1.mem (r.2.data + 0))
      = .ok (h.mem 4112) ∧
    ((sd_memory_malloc heap_ff 4096 8 (some 16)).bind fun r => sd_get_uint8 r.1 r.2 0)
      = .ok 255 := by
  have hq : align_ptr (4096 + 8) 16 = 4112 := by decide
  have hn : align_size (wadd 8 8) 16 = 16 := by decide
  have hpow : is_power_of_two 16 = true := by decide
  refine ⟨by decide, ?_, ?_, by decide⟩
  · simp [sd_memory_malloc, com_malloc, Except.map, hpow, hq]
  · simp [sd_memory_malloc, com_malloc, Except.map, hpow, hq, hn, store, xcalloc]

/-- The function `sd_memory_new` in closed form. -/
theorem sd_memory_new_eq (h : Heap) (address size : Nat) (al : Option Nat) :
    sd_memory_new h address (some size) al =
      (if address = 0 ∨ size < 1 then .error .InvalidArgument
       else .ok (h, ⟨address, false, size, al.getD 8, false⟩)) := by
  unfold sd_memory_new
  by_cases ha : address = 0
  · simp [ha]
  · by_cases hs : size = 0
    · simp [ha, hs]
    · have hs' : ¬ size < 1 := by omega
      simp [ha, hs, hs']

/-- C8: `new(address, size, alignment)` raises `InvalidArgument` exactly when the
address is null or the size is below 1; otherwise it returns, on the unchanged
heap, the block with that address and size, the given alignment (8 when
omitted) and no release callback. -/
theorem sd_memory_new_spec (h : Heap) (address size : Nat) (al : Option Nat) :
    (sd_memory_new h address (some size) al = .error .InvalidArgument ↔
      (address = 0 ∨ size < 1)) ∧
    sd_memory_new h address (some size) al =
      (if address = 0 ∨ size < 1 then .error .InvalidArgument
       else .ok (h, ⟨address, false, size, al.getD 8, false⟩)) := by
  refine ⟨?_, sd_memory_new_eq h address size al⟩
  rw [sd_memory_new_eq]
  by_cases hc : address = 0 ∨ size < 1
  · rw [if_pos hc]
    exact ⟨fun _ => hc, fun _ => rfl⟩
  · rw [if_neg hc]
    exact ⟨fun he => (by cases he), fun hb => absurd hb hc⟩

/-! ## Lifecycle invariants -/

/-- What a successful `sd_memory_realloc` call did to the block: nothing, or a
validated replacement of address, size and alignment. -/
theorem sd_memory_realloc_inv {h : Heap} {p : Nat} {b : Memory} {size : Nat}
    {al : Option Nat} {h1 : Heap} {b1 : Memory}
    (hc : sd_memory_realloc h p b size al = .ok (h1, b1)) :
    b1 = b ∨
    (is_power_of_two (al.getD b.alignment) = true ∧ 1 ≤ size ∧ p ≠ 0 ∧
      b1 = { b with data := align_ptr (p + 8) (al.getD b.alignment), dfree := true,
                    bytesize := size, alignment := al.getD b.alignment }) := by
  unfold sd_memory_realloc com_malloc rb_check_frozen at hc
  dsimp only at hc
  by_cases hfr : b.frozen = true
  · simp [hfr] at hc
  · by_cases hsame : b.bytesize = size ∧ al.getD b.alignment = b.alignment
    · simp [hfr, hsame] at hc
      exact Or.inl hc.2.symm
    · by_cases hpow : is_power_of_two (al.getD b.alignment) = true
      · by_cases hs : size < 1
        · simp [hfr, hsame, hpow, hs] at hc
        · by_cases hp : p = 0
          · simp [hfr, hsame, hpow, hs, hp] at hc
          · right
            refine ⟨hpow, by omega, hp, ?_⟩
            simp only [hfr, hsame, hpow, hs, hp] at hc
            simp only [Bool.false_eq_true, if_false, Bool.not_true] at hc
            split at hc
            · cases hc
            · injection hc with hc
              injection hc with _ hb
              have hfr' : b.frozen = false := by simpa using hfr
              rw [hfr']
              exact hb.symm
      · simp [hfr, hsame, hpow] at hc

/-- What a successful `sd_memory_free` call did to the block. -/
theorem sd_memory_free_inv {h : Heap} {b : Memory} {h1 : Heap} {b1 : Memory}
    (hc : sd_memory_free h b = .ok (h1, b1)) :
    b.data ≠ 0 ∧ b1.data = 0 ∧ b1.bytesize = 0 ∧ b1.alignment = b.alignment ∧
    b1.dfree = false ∧ b1.frozen = b.frozen := by
  unfold sd_memory_free com_free rb_check_frozen at hc
  by_cases hfr : b.frozen = true
  · simp [hfr] at hc
  · by_cases hd : b.data = 0
    · simp [hfr, hd] at hc
    · have hfr' : b.frozen = false := by simpa using hfr
      cases hdf : b.dfree
      · simp [hfr, hd, hdf] at hc
        rw [← hc.2]
        exact ⟨hd, rfl, rfl, rfl, rfl, hfr'.symm⟩
      · simp [hfr, hd, hdf] at hc
        rw [← hc.2]
        exact ⟨hd, rfl, rfl, rfl, rfl, hfr'.symm⟩

/-- A successful `sd_memory_copy` call returns the block it was given. -/
theorem sd_memory_copy_inv {h : Heap} {b : Memory} {src : Nat} {sz d s n : Option Nat}
    {h1 : Heap} {b1 : Memory} (hc : sd_memory_copy h b src sz d s n = .ok (h1, b1)) :
    b1 = b := by
  unfold sd_memory_copy at hc
  dsimp only at hc
  repeat' split at hc
  all_goals first
    | (cases hc; rfl)
    | cases hc

/-- The address `com_malloc` returns is not null when the allocator's pointer is sound. -/
theorem align_ptr_ne_zero {p n a : Nat} (hret : heap_returns p n) (ha : a < 2 ^ 64)
    (hpow : is_power_of_two a = true) : align_ptr (p + 8) a ≠ 0 := by
  obtain ⟨k, hk, rfl⟩ := two_pow_of_is_power_of_two ha hpow
  obtain ⟨hp0, hp8, hplt, _⟩ := hret
  have hle : p + 8 ≤ align_ptr (p + 8) (2 ^ k) := le_align_ptr hk (by omega)
  omega

/-- What a successful `sd_memory_new` call returned. -/
theorem sd_memory_new_inv {h : Heap} {address size : Nat} {al : Option Nat} {h1 : Heap}
    {b : Memory} (hc : sd_memory_new h address (some size) al = .ok (h1, b)) :
    address ≠ 0 ∧ 1 ≤ size ∧ b = ⟨address, false, size, al.getD 8, false⟩ := by
  rw [sd_memory_new_eq] at hc
  by_cases hbad : address = 0 ∨ size < 1
  · rw [if_pos hbad] at hc
    cases hc
  · rw [if_neg hbad] at hc
    injection hc with hc
    injection hc with _ hb
    exact ⟨by omega, by omega, hb.symm⟩

/-- C9 (counterexample): `new(4096, 4, 3)` succeeds and records the alignment 3,
which is not a power of two. -/
theorem wrap_records_alignment_three :
    Reachable (fun _ => True) heap_ff wrapped_align3 ∧
    is_power_of_two wrapped_align3.alignment = false := by
  refine ⟨?_, by decide⟩
  refine Reachable.wrap heap_ff 4096 4 (some 3) heap_ff wrapped_align3 trivial ?_
  unfold wrap_call
  exact ⟨by norm_num, by norm_num, by norm_num [Option.getD], rfl⟩

/-- C9 (amended): in every state reachable by successful `malloc`, `new`,
`realloc!`, `free!`, typed setter and `copy!` calls in which every `new` is
given a power-of-two alignment or none, the recorded alignment is a power of
two. -/
theorem alignment_power_of_two_of_reachable (h : Heap) (b : Memory)
    (hr : Reachable (fun al => is_power_of_two (al.getD 8) = true) h b) :
    is_power_of_two b.alignment = true := by
  induction hr with
  | malloc h p size al h1 b hc =>
    unfold malloc_call at hc
    obtain ⟨hpow, _, _, hb⟩ := sd_memory_malloc_inv hc.2.2.2
    rw [hb]; exact hpow
  | wrap h address size al h1 b hw hc =>
    unfold wrap_call at hc
    obtain ⟨_, _, hb⟩ := sd_memory_new_inv hc.2.2.2
    rw [hb]; exact hw
  | realloc h b p size al h1 b1 _ hc ih =>
    unfold realloc_call at hc
    rcases sd_memory_realloc_inv hc.2.2.2 with hb | ⟨hpow, _, _, hb⟩
    · rw [hb]; exact ih
    · rw [hb]; exact hpow
  | free h b h1 b1 _ hc ih =>
    obtain ⟨_, _, _, hal, _⟩ := sd_memory_free_inv hc
    rw [hal]; exact ih
  | set h b K offset v h1 r _ _ ih => exact ih
  | copy h b src sz d s n h1 b1 _ hc ih =>
    rw [sd_memory_copy_inv hc]; exact ih

/-- Witness for C9: the block wrapped with the default alignment. -/
theorem alignment_power_of_two_of_reachable_witness :
    Reachable (fun al => is_power_of_two (al.getD 8) = true) heap_ff wrapped8 ∧
    is_power_of_two wrapped8.alignment = true :=
  have hr : Reachable (fun al => is_power_of_two (al.getD 8) = true) heap_ff wrapped8 :=
    Reachable.wrap heap_ff 4096 8 none heap_ff wrapped8 (by decide)
      (by unfold wrap_call; exact ⟨by norm_num, by norm_num, by norm_num [Option.getD], rfl⟩)
  ⟨hr, alignment_power_of_two_of_reachable heap_ff wrapped8 hr⟩

/-- C10: in every state reachable by successful `malloc`, `new`, `realloc!` and
`free!` calls (typed setters and `copy!` included), the size is at least 1
whenever the address is not null, and is 0 whenever the address is null. -/
theorem bytesize_pos_iff_live_of_reachable (h : Heap) (b : Memory)
    (hr : Reachable (fun _ => True) h b) :
    (b.data ≠ 0 → 1 ≤ b.bytesize) ∧ (b.data = 0 → b.bytesize = 0) := by
  induction hr with
  | malloc h p size al h1 b hc =>
    unfold malloc_call at hc
    obtain ⟨_, ha, hret, heq⟩ := hc
    obtain ⟨hpow, hs, _, hb⟩ := sd_memory_malloc_inv heq
    have hne := align_ptr_ne_zero hret ha hpow
    rw [hb]
    exact ⟨fun _ => hs, fun h0 => absurd h0 hne⟩
  | wrap h address size al h1 b _ hc =>
    unfold wrap_call at hc
    obtain ⟨hne, hs, hb⟩ := sd_memory_new_inv hc.2.2.2
    rw [hb]
    exact ⟨fun _ => hs, fun h0 => absurd h0 hne⟩
  | realloc h b p size al h1 b1 _ hc ih =>
    unfold realloc_call at hc
    obtain ⟨_, ha, hret, heq⟩ := hc
    rcases sd_memory_realloc_inv heq with hb | ⟨hpow, hs, _, hb⟩
    · rw [hb]; exact ih
    · have hne := align_ptr_ne_zero hret ha hpow
      rw [hb]
      exact ⟨fun _ => hs, fun h0 => absurd h0 hne⟩
  | free h b h1 b1 _ hc ih =>
    obtain ⟨_, hd, hsz, _⟩ := sd_memory_free_inv hc
    exact ⟨fun h0 => absurd hd h0, fun _ => hsz⟩
  | set h b K offset v h1 r _ _ ih => exact ih
  | copy h b src sz d s n h1 b1 _ hc ih =>
    rw [sd_memory_copy_inv hc]; exact ih

/-- Witness for C10: a wrapped block, live with size 8, and the same block after
`free!`, null with size 0. -/
theorem bytesize_pos_iff_live_of_reachable_witness :
    (Reachable (fun _ => True) heap_ff wrapped8 ∧ wrapped8.data ≠ 0 ∧ 1 ≤ wrapped8.bytesize) ∧
    (Reachable (fun _ => True) heap_ff freed8 ∧ freed8.data = 0 ∧ freed8.bytesize = 0) :=
  have hr : Reachable (fun _ => True) heap_ff wrapped8 :=
    Reachable.wrap heap_ff 4096 8 none heap_ff wrapped8 trivial
      (by unfold wrap_call; exact ⟨by norm_num, by norm_num, by norm_num [Option.getD], rfl⟩)
  have hf : Reachable (fun _ => True) heap_ff freed8 :=
    Reachable.free heap_ff wrapped8 heap_ff freed8 hr rfl
  ⟨⟨hr, by decide, (bytesize_pos_iff_live_of_reachable heap_ff wrapped8 hr).1 (by decide)⟩,
   ⟨hf, rfl, (bytesize_pos_iff_live_of_reachable heap_ff freed8 hf).2 rfl⟩⟩

/-! ## State at exit -/

/-- The `_run` form of a typed setter gives the result of `sd_set`. -/
theorem sd_set_run_value (K : ScalarKind) (h : Heap) (self : Memory) (offset : Nat) (v : Int) :
    (sd_set_run K h self offset v).value = sd_set K h self offset v := by
  unfold sd_set_run sd_set Outcome.value
  cases sd_check_block_bounds self offset K.size <;>
  cases sd_check_null_block self <;>
  cases rb_check_frozen self <;>
  cases K.of_num v <;> rfl

/-- The `_run` form of `free!` gives the result of `sd_memory_free`. -/
theorem sd_memory_free_run_state (h : Heap) (self : Memory) :
    (sd_memory_free_run h self).state = sd_memory_free h self := by
  unfold sd_memory_free_run sd_memory_free Outcome.state
  cases rb_check_frozen self
  · rfl
  · dsimp only
    by_cases h1 : self.data ≠ 0 ∧ self.dfree = true
    · rw [if_pos h1, if_pos h1]
      cases com_free h self.data <;> rfl
    · rw [if_neg h1, if_neg h1]
      by_cases h2 : self.data = 0
      · rw [if_pos h2, if_pos h2]
      · rw [if_neg h2, if_neg h2]

/-- The `_run` form of `realloc!` gives the result of `sd_memory_realloc`. -/
theorem sd_memory_realloc_run_state (h : Heap) (p : Nat) (self : Memory) (size : Nat)
    (al : Option Nat) :
    (sd_memory_realloc_run h p self size al).state = sd_memory_realloc h p self size al := by
  unfold sd_memory_realloc_run sd_memory_realloc Outcome.state
  cases rb_check_frozen self
  · rfl
  · dsimp only
    by_cases h1 : self.bytesize = size ∧ al.getD self.alignment = self.alignment
    · rw [if_pos h1, if_pos h1]
    · rw [if_neg h1, if_neg h1]
      by_cases h2 : (!is_power_of_two (al.getD self.alignment)) = true
      · rw [if_pos h2, if_pos h2]
      · rw [if_neg h2, if_neg h2]
        by_cases h3 : size < 1
        · rw [if_pos h3, if_pos h3]
        · rw [if_neg h3, if_neg h3]
          cases com_malloc h p size (al.getD self.alignment) with
          | error e => rfl
          | ok r =>
            obtain ⟨h1, q⟩ := r
            dsimp only
            cases hd : self.dfree
            · rfl
            · simp only [if_true]
              unfold com_free
              by_cases h0 : self.data = 0
              · simp only [h0, if_true]
              · simp only [h0, if_false]

/-- The `_run` form of `copy!` gives the result of `sd_memory_copy`. -/
theorem sd_memory_copy_run_state (h : Heap) (self : Memory) (src : Nat)
    (sz d s n : Option Nat) :
    (sd_memory_copy_run h self src sz d s n).state = sd_memory_copy h self src sz d s n := by
  unfold sd_memory_copy_run sd_memory_copy Outcome.state
  cases sd_check_null_block self
  · rfl
  · cases rb_check_frozen self
    · rfl
    · dsimp only
      split_ifs <;> rfl

/-! ## Reallocation and release -/

/-- A reallocating `realloc!` call in closed form: the request is valid, differs
from the current size and alignment, and the release callback, if set, is
given a non-null address. -/
theorem sd_memory_realloc_run_eq (h : Heap) (p : Nat) (b : Memory) (size : Nat)
    (al : Option Nat) (hmut : b.frozen = false)
    (hne : ¬ (b.bytesize = size ∧ al.getD b.alignment = b.alignment))
    (hpow : is_power_of_two (al.getD b.alignment) = true) (hs : 1 ≤ size) (hp : p ≠ 0)
    (hown : b.dfree = true → b.data ≠ 0) :
    ∃ h1, sd_memory_realloc_run h p b size al =
        ⟨h1, { b with data := align_ptr (p + 8) (al.getD b.alignment), dfree := true,
                      bytesize := size, alignment := al.getD b.alignment }, .ok ()⟩ ∧
      h1.mem = (if b.data ≠ 0 ∧ b.bytesize > 0 then
          memmove (store (xcalloc h.mem p (align_size (wadd size 8) (al.getD b.alignment)))
              (align_ptr (p + 8) (al.getD b.alignment) - 8) 8 p)
            (align_ptr (p + 8) (al.getD b.alignment)) b.data
            (if b.bytesize > size then size else b.bytesize)
        else store (xcalloc h.mem p (align_size (wadd size 8) (al.getD b.alignment)))
              (align_ptr (p + 8) (al.getD b.alignment) - 8) 8 p) ∧
      (b.dfree = false → h1.released = h.released) ∧
      (b.dfree = true → ∃ base, h1.released = base :: h.released) := by
  have hs' : ¬ size < 1 := by omega
  unfold sd_memory_realloc_run com_malloc rb_check_frozen
  simp only [hmut, hne, hpow, hs', hp, if_false, Bool.false_eq_true, Bool.not_true]
  cases hd : b.dfree
  · simp only [Bool.false_eq_true, if_false]
    refine ⟨_, rfl, ?_, ?_, ?_⟩
    · split_ifs <;> rfl
    · intro _
      split_ifs <;> rfl
    · intro hf; cases hf
  · have hdata : b.data ≠ 0 := hown hd
    unfold com_free
    simp only [if_true, hdata, if_false]
    refine ⟨_, rfl, ?_, ?_, ?_⟩
    · split_ifs <;> rfl
    · intro hf; cases hf
    · intro _
      split_ifs <;> exact ⟨_, rfl⟩

/-- A `realloc!` call that returns without being the same-size-same-alignment
return passed every check. -/
theorem sd_memory_realloc_valid_of_ok {h : Heap} {p : Nat} {b : Memory} {size : Nat}
    {al : Option Nat} {h1 : Heap} {b1 : Memory}
    (hc : sd_memory_realloc h p b size al = .ok (h1, b1))
    (hne : ¬ (b.bytesize = size ∧ al.getD b.alignment = b.alignment)) :
    b.frozen = false ∧ is_power_of_two (al.getD b.alignment) = true ∧ 1 ≤ size ∧ p ≠ 0 ∧
    (b.dfree = true → b.data ≠ 0) := by
  unfold sd_memory_realloc com_malloc rb_check_frozen at hc
  dsimp only at hc
  by_cases hfr : b.frozen = true
  · simp [hfr] at hc
  · by_cases hpow : is_power_of_two (al.getD b.alignment) = true
    · by_cases hs : size < 1
      · simp [hfr, hne, hpow, hs] at hc
      · by_cases hp : p = 0
        · simp [hfr, hne, hpow, hs, hp] at hc
        · refine ⟨by simpa using hfr, hpow, by omega, hp, ?_⟩
          intro hd h0
          simp [hfr, hne, hpow, hs, hp, hd, h0, com_free] at hc
    · simp [hfr, hne, hpow] at hc

/-- C11: for a live mutable block of size `n`, a new size `m ≥ 1` and a
power-of-two alignment not both equal to the current ones, with the old block
overlapping neither the region the allocator returns nor the new block,
`realloc!` succeeds, the block has size `m`, and its first `min n m` bytes are
the first `min n m` bytes the old block held. -/
theorem sd_memory_realloc_keeps_leading_bytes (h : Heap) (p : Nat) (b : Memory) (m : Nat)
    (al : Option Nat) (hlive : b.data ≠ 0) (hmut : b.frozen = false) (hm : 1 ≤ m)
    (ha : al.getD b.alignment < 2 ^ 64)
    (hpow : is_power_of_two (al.getD b.alignment) = true)
    (hne : ¬ (b.bytesize = m ∧ al.getD b.alignment = b.alignment))
    (hret : heap_returns p (align_size (wadd m 8) (al.getD b.alignment)))
    (hfresh : b.data + b.bytesize ≤ p ∨
      (p + align_size (wadd m 8) (al.getD b.alignment) ≤ b.data ∧
        align_ptr (p + 8) (al.getD b.alignment) + m ≤ b.data)) :
    ∃ h1 b1, sd_memory_realloc h p b m al = .ok (h1, b1) ∧ b1.bytesize = m ∧
      ∀ i, i < min b.bytesize m → h1.mem (b1.data + i) = h.mem (b.data + i) := by
  have hp0 : p ≠ 0 := by have := hret.1; omega
  obtain ⟨k, hk, hak⟩ := two_pow_of_is_power_of_two ha hpow
  have hq : p + 8 ≤ align_ptr (p + 8) (al.getD b.alignment) := by
    rw [hak]
    have h8 := hret.2.1
    have hlt := hret.2.2.1
    exact le_align_ptr hk (by omega)
  obtain ⟨h1, hrun, hmem, _, _⟩ :=
    sd_memory_realloc_run_eq h p b m al hmut hne hpow hm hp0 (fun _ => hlive)
  have hst := sd_memory_realloc_run_state h p b m al
  rw [hrun] at hst
  refine ⟨h1, _, hst.symm, rfl, ?_⟩
  intro i hi
  have hn : b.bytesize > 0 := by omega
  have hc : i < (if b.bytesize > m then m else b.bytesize) := by split_ifs <;> omega
  show h1.mem (align_ptr (p + 8) (al.getD b.alignment) + i) = h.mem (b.data + i)
  rw [hmem, if_pos ⟨hlive, hn⟩]
  unfold memmove
  rw [if_pos ⟨by omega, by omega⟩, Nat.add_sub_cancel_left]
  unfold store
  rw [if_neg (by omega)]
  unfold xcalloc
  rw [if_neg (by omega)]

/-- Witness for C11: the 8-byte block at `4096` grown to 16 bytes keeps its 8
bytes, and the 16-byte block at `4096` shrunk to 4 bytes keeps its first 4; the
allocator returns `8192`. -/
theorem sd_memory_realloc_keeps_leading_bytes_witness :
    (∃ h1 b1, sd_memory_realloc heap_pattern 8192 wrapped8 16 none = .ok (h1, b1) ∧
      b1.bytesize = 16 ∧
      ∀ i, i < min wrapped8.bytesize 16 →
        h1.mem (b1.data + i) = heap_pattern.mem (wrapped8.data + i)) ∧
    (∃ h1 b1, sd_memory_realloc heap_pattern 8192 wrapped16 4 none = .ok (h1, b1) ∧
      b1.bytesize = 4 ∧
      ∀ i, i < min wrapped16.bytesize 4 →
        h1.mem (b1.data + i) = heap_pattern.mem (wrapped16.data + i)) :=
  ⟨sd_memory_realloc_keeps_leading_bytes heap_pattern 8192 wrapped8 16 none (by decide) rfl
      (by decide) (by decide) (by decide) (by decide) (by decide) (by decide),
   sd_memory_realloc_keeps_leading_bytes heap_pattern 8192 wrapped16 4 none (by decide) rfl
      (by decide) (by decide) (by decide) (by decide) (by decide) (by decide)⟩

/-- C12: every `realloc!` call that succeeds without being the
same-size-same-alignment return leaves the block with the release callback set,
the new size and the new alignment, and hands nothing to `xfree` when the block
had no release callback; and such a call does succeed on every unfrozen block
whose release callback, if set, has a non-null address, for a size of at least 1,
a power-of-two alignment and a non-null allocator pointer. -/
theorem sd_memory_realloc_owns (h : Heap) (p : Nat) (b : Memory) (size : Nat)
    (al : Option Nat) (hne : ¬ (b.bytesize = size ∧ al.getD b.alignment = b.alignment)) :
    (∀ h1 b1, sd_memory_realloc h p b size al = .ok (h1, b1) →
      b1.dfree = true ∧ b1.bytesize = size ∧ b1.alignment = al.getD b.alignment ∧
      (b.dfree = false → h1.released = h.released)) ∧
    (b.frozen = false → is_power_of_two (al.getD b.alignment) = true → 1 ≤ size → p ≠ 0 →
      (b.dfree = true → b.data ≠ 0) →
      ∃ h1 b1, sd_memory_realloc h p b size al = .ok (h1, b1)) := by
  constructor
  · intro h1 b1 hc
    obtain ⟨hmut, hpow, hs, hp, hown⟩ := sd_memory_realloc_valid_of_ok hc hne
    obtain ⟨h2, hrun, _, hrel, _⟩ := sd_memory_realloc_run_eq h p b size al hmut hne hpow hs hp hown
    have hst := sd_memory_realloc_run_state h p b size al
    rw [hrun, hc] at hst
    injection hst with hst
    injection hst with hh hb
    subst hh
    rw [← hb]
    exact ⟨rfl, rfl, rfl, hrel⟩
  · intro hmut hpow hs hp hown
    obtain ⟨h2, hrun, _, _, _⟩ := sd_memory_realloc_run_eq h p b size al hmut hne hpow hs hp hown
    have hst := sd_memory_realloc_run_state h p b size al
    rw [hrun] at hst
    exact ⟨h2, _, hst.symm⟩

/-- Witness for C12: the borrowed 8-byte block at `4096` reallocated to 16 bytes
aligned to 16, the allocator returning `8192`. -/
theorem sd_memory_realloc_owns_witness :
    ∃ h1 b1, sd_memory_realloc heap_pattern 8192 wrapped8 16 (some 16) = .ok (h1, b1) ∧
      b1.dfree = true ∧ b1.bytesize = 16 ∧ b1.alignment = (some 16).getD wrapped8.alignment ∧
      (wrapped8.dfree = false → h1.released = heap_pattern.released) :=
  have t := sd_memory_realloc_owns heap_pattern 8192 wrapped8 16 (some 16) (by decide)
  (t.2 rfl (by decide) (by decide) (by decide) (by decide)).elim fun h1 ex =>
    ex.elim fun b1 hc => ⟨h1, b1, hc, t.1 h1 b1 hc⟩

/-- C13: on every unfrozen block, `realloc!` with the current size and the current
alignment, given or defaulted, returns at once: heap and block are unchanged,
whatever the size, 0 included. -/
theorem sd_memory_realloc_noop (h : Heap) (p : Nat) (b : Memory) (al : Option Nat)
    (hmut : b.frozen = false) (hal : al.getD b.alignment = b.alignment) :
    sd_memory_realloc_run h p b b.bytesize al = ⟨h, b, .ok ()⟩ ∧
    sd_memory_realloc h p b b.bytesize al = .ok (h, b) := by
  constructor
  · unfold sd_memory_realloc_run rb_check_frozen
    simp only [hmut, hal, and_self, if_true, Bool.false_eq_true, if_false]
  · unfold sd_memory_realloc rb_check_frozen
    simp only [hmut, hal, and_self, if_true, Bool.false_eq_true, if_false]

/-- Witness for C13: the freed block (null address, size 0) with the alignment
omitted, and the borrowed 8-byte block with its alignment 8 given. -/
theorem sd_memory_realloc_noop_witness :
    (sd_memory_realloc_run heap_ff 8192 freed8 freed8.bytesize none = ⟨heap_ff, freed8, .ok ()⟩ ∧
      sd_memory_realloc heap_ff 8192 freed8 freed8.bytesize none = .ok (heap_ff, freed8)) ∧
    (sd_memory_realloc_run heap_ff 8192 wrapped8 wrapped8.bytesize (some 8)
        = ⟨heap_ff, wrapped8, .ok ()⟩ ∧
      sd_memory_realloc heap_ff 8192 wrapped8 wrapped8.bytesize (some 8)
        = .ok (heap_ff, wrapped8)) :=
  ⟨sd_memory_realloc_noop heap_ff 8192 freed8 none rfl rfl,
   sd_memory_realloc_noop heap_ff 8192 wrapped8 (some 8) rfl rfl⟩

/-- The slot before the pointer `com_malloc` returns holds the allocator's pointer. -/
theorem com_malloc_back_pointer {h : Heap} {p size a : Nat} {h1 : Heap} {q : Nat}
    (hp : p < 2 ^ 64) (hc : com_malloc h p size a = .ok (h1, q)) :
    load h1.mem (q - 8) 8 = p := by
  unfold com_malloc at hc
  dsimp only at hc
  by_cases hp0 : p = 0
  · simp [hp0] at hc
  · rw [if_neg hp0] at hc
    injection hc with hc
    injection hc with hh hq
    rw [← hh, ← hq]
    show load (store _ _ 8 p) _ 8 = p
    rw [load_store]
    exact Nat.mod_eq_of_lt (by simpa using hp)

/-- On an unfrozen block with a non-null address `free!` returns, in closed form. -/
theorem sd_memory_free_ok (h : Heap) (b : Memory) (hlive : b.data ≠ 0)
    (hmut : b.frozen = false) :
    sd_memory_free h b =
      .ok (⟨h.mem, if b.dfree then load h.mem (b.data - 8) 8 :: h.released else h.released⟩,
           ⟨0, false, 0, b.alignment, false⟩) := by
  unfold sd_memory_free rb_check_frozen com_free
  cases hd : b.dfree <;> simp [hmut, hlive, hd]

/-- The block `malloc` returns has its release callback set, and the slot before
its address holds the allocator's pointer. -/
theorem sd_memory_malloc_back_pointer {h0 : Heap} {p size : Nat} {al : Option Nat}
    {h : Heap} {b : Memory} (hp : p < 2 ^ 64)
    (hc : sd_memory_malloc h0 p size al = .ok (h, b)) :
    b.dfree = true ∧ load h.mem (b.data - 8) 8 = p := by
  have hb := (sd_memory_malloc_inv hc).2.2.2
  unfold sd_memory_malloc at hc
  dsimp only at hc
  split_ifs at hc
  cases hcm : com_malloc h0 p size (al.getD 8) with
  | error e => rw [hcm] at hc; cases hc
  | ok r =>
    obtain ⟨h2, q⟩ := r
    rw [hcm] at hc
    injection hc with hc
    injection hc with hh hbq
    have hback := com_malloc_back_pointer hp hcm
    subst hh
    rw [← hbq]
    exact ⟨rfl, hback⟩

/-- C14: on every unfrozen block with a non-null address `free!` succeeds and
leaves a null address, size 0, no release callback and the same alignment; the
heap bytes are untouched; nothing is handed to `xfree` when the block had no
release callback; the back-pointer is handed to `xfree` when it had one, and
for a block just returned by `malloc` that is the allocator's pointer. -/
theorem sd_memory_free_live (h : Heap) (b : Memory) (hlive : b.data ≠ 0)
    (hmut : b.frozen = false) :
    ∃ h1, sd_memory_free h b = .ok (h1, ⟨0, false, 0, b.alignment, false⟩) ∧
      h1.mem = h.mem ∧
      (b.dfree = false → h1.released = h.released) ∧
      (b.dfree = true → h1.released = load h.mem (b.data - 8) 8 :: h.released) ∧
      (∀ h0 p size al, p < 2 ^ 64 → sd_memory_malloc h0 p size al = .ok (h, b) →
        h1.released = p :: h.released) := by
  refine ⟨_, sd_memory_free_ok h b hlive hmut, rfl, ?_, ?_, ?_⟩
  · intro hd
    simp [hd]
  · intro hd
    simp [hd]
  · intro h0 p size al hp hc
    obtain ⟨hd, hback⟩ := sd_memory_malloc_back_pointer hp hc
    simp [hd, hback]

/-- Witness for C14: the borrowed 8-byte block at `4096`, and the owned 8-byte
block at `8200`. -/
theorem sd_memory_free_live_witness :
    (∃ h1, sd_memory_free heap_ff wrapped8 = .ok (h1, ⟨0, false, 0, wrapped8.alignment, false⟩) ∧
      h1.mem = heap_ff.mem ∧ h1.released = heap_ff.released) ∧
    (∃ h1, sd_memory_free heap_ff owned8 = .ok (h1, ⟨0, false, 0, owned8.alignment, false⟩) ∧
      h1.mem = heap_ff.mem ∧
      h1.released = load heap_ff.mem (owned8.data - 8) 8 :: heap_ff.released) :=
  have t1 := sd_memory_free_live heap_ff wrapped8 (by decide) rfl
  have t2 := sd_memory_free_live heap_ff owned8 (by decide) rfl
  ⟨t1.elim fun h1 t => ⟨h1, t.1, t.2.1, t.2.2.1 rfl⟩,
   t2.elim fun h1 t => ⟨h1, t.1, t.2.1, t.2.2.2.1 rfl⟩⟩

/-- C15: on every unfrozen block with a non-null address the first `free!`
succeeds and a second `free!` raises `DoubleFree`, leaving heap and block as the
first call left them: null address, size 0. -/
theorem sd_memory_free_twice (h : Heap) (b : Memory) (hlive : b.data ≠ 0)
    (hmut : b.frozen = false) :
    ∃ h1 b1, sd_memory_free h b = .ok (h1, b1) ∧
      sd_memory_free_run h1 b1 = ⟨h1, b1, .error .DoubleFree⟩ ∧
      sd_memory_free h1 b1 = .error .DoubleFree ∧
      b1.data = 0 ∧ b1.bytesize = 0 := by
  refine ⟨_, _, sd_memory_free_ok h b hlive hmut, ?_, ?_, rfl, rfl⟩
  · rfl
  · rfl

/-- Witness for C15: the borrowed 8-byte block at `4096`. -/
theorem sd_memory_free_twice_witness :
    ∃ h1 b1, sd_memory_free heap_ff wrapped8 = .ok (h1, b1) ∧
      sd_memory_free_run h1 b1 = ⟨h1, b1, .error .DoubleFree⟩ ∧
      sd_memory_free h1 b1 = .error .DoubleFree ∧
      b1.data = 0 ∧ b1.bytesize = 0 :=
  sd_memory_free_twice heap_ff wrapped8 (by decide) rfl

/-! ## Frozen blocks and failed calls -/

/-- C16: on a frozen block with a non-null address, `set_int32` at an in-bounds
offset, `realloc!`, `free!` and `copy!` each raise `Frozen` and leave heap and
block as they were, while `get_int32` at an in-bounds offset returns the boxed
value of the four bytes stored there. -/
theorem frozen_block_rejects_mutation (h : Heap) (b : Memory) (offset : Nat) (v : Int)
    (p size : Nat) (al : Option Nat) (src : Nat) (sz d s n : Option Nat)
    (hlive : b.data ≠ 0) (hfr : b.frozen = true) (hN : b.bytesize < 2 ^ 64)
    (hle : offset + 4 ≤ b.bytesize) :
    sd_set_run int32_t h b offset v = ⟨h, b, .error .Frozen⟩ ∧
    sd_set_int32 h b offset v = .error .Frozen ∧
    sd_memory_realloc_run h p b size al = ⟨h, b, .error .Frozen⟩ ∧
    sd_memory_free_run h b = ⟨h, b, .error .Frozen⟩ ∧
    sd_memory_copy_run h b src sz d s n = ⟨h, b, .error .Frozen⟩ ∧
    sd_get_int32 h b offset = .ok (SD_INT32_TO_NUM (load h.mem (b.data + offset) 4)) := by
  have hb : sd_check_block_bounds b offset int32_t.size = .ok () :=
    sd_check_block_bounds_ok hN (by decide) hle
  have hrun : sd_set_run int32_t h b offset v = ⟨h, b, .error .Frozen⟩ := by
    unfold sd_set_run
    rw [hb]
    simp [sd_check_null_block, rb_check_frozen, hlive, hfr]
  refine ⟨hrun, ?_, ?_, ?_, ?_, ?_⟩
  · unfold sd_set_int32
    rw [← sd_set_run_value, hrun]
    rfl
  · unfold sd_memory_realloc_run
    simp [rb_check_frozen, hfr]
  · unfold sd_memory_free_run
    simp [rb_check_frozen, hfr]
  · unfold sd_memory_copy_run
    simp [sd_check_null_block, rb_check_frozen, hlive, hfr]
  · unfold sd_get_int32
    exact sd_get_ok int32_t h b offset hlive hN (by decide) hle

/-- Witness for C16: the frozen 8-byte block at `4096`, offset 4. -/
theorem frozen_block_rejects_mutation_witness :
    sd_set_run int32_t heap_pattern frozen8 4 5 = ⟨heap_pattern, frozen8, .error .Frozen⟩ ∧
    sd_set_int32 heap_pattern frozen8 4 5 = .error .Frozen ∧
    sd_memory_realloc_run heap_pattern 8192 frozen8 16 none
      = ⟨heap_pattern, frozen8, .error .Frozen⟩ ∧
    sd_memory_free_run heap_pattern frozen8 = ⟨heap_pattern, frozen8, .error .Frozen⟩ ∧
    sd_memory_copy_run heap_pattern frozen8 8192 none none none (some 4)
      = ⟨heap_pattern, frozen8, .error .Frozen⟩ ∧
    sd_get_int32 heap_pattern frozen8 4
      = .ok (SD_INT32_TO_NUM (load heap_pattern.mem (frozen8.data + 4) 4)) :=
  frozen_block_rejects_mutation heap_pattern frozen8 4 5 8192 16 none 8192 none none none
    (some 4) (by decide) rfl (by decide) (by decide)

/-- C17: whenever a typed setter, `set_string`, `realloc!`, `free!` or `copy!`
raises, the block is the block before the call, and the heap is the heap before
the call; the one exception is `realloc!` on a block with a null address, which
may have allocated before it raises. -/
theorem failed_call_keeps_state (h : Heap) (b : Memory) :
    (∀ K offset v e, (sd_set_run K h b offset v).result = .error e →
      (sd_set_run K h b offset v).self = b ∧ (sd_set_run K h b offset v).heap = h) ∧
    (∀ offset sv nt e, (sd_set_string_run h b offset sv nt).result = .error e →
      (sd_set_string_run h b offset sv nt).self = b ∧
      (sd_set_string_run h b offset sv nt).heap = h) ∧
    (∀ p size al e, (sd_memory_realloc_run h p b size al).result = .error e →
      (sd_memory_realloc_run h p b size al).self = b ∧
      (b.data ≠ 0 → (sd_memory_realloc_run h p b size al).heap = h)) ∧
    (∀ e, (sd_memory_free_run h b).result = .error e →
      (sd_memory_free_run h b).self = b ∧ (sd_memory_free_run h b).heap = h) ∧
    (∀ src sz d s n e, (sd_memory_copy_run h b src sz d s n).result = .error e →
      (sd_memory_copy_run h b src sz d s n).self = b ∧
      (sd_memory_copy_run h b src sz d s n).heap = h) := by
  refine ⟨?_, ?_, ?_, ?_, ?_⟩
  · intro K offset v e
    unfold sd_set_run
    cases sd_check_block_bounds b offset K.size <;>
    cases sd_check_null_block b <;>
    cases rb_check_frozen b <;>
    cases K.of_num v <;> simp
  · intro offset sv nt e
    unfold sd_set_string_run
    cases sd_check_null_block b <;>
    cases rb_check_frozen b <;>
    cases StringValueCStr sv <;> simp
    split_ifs <;> simp
  · intro p size al e
    unfold sd_memory_realloc_run com_malloc com_free
    cases rb_check_frozen b
    · simp
    · dsimp only
      split_ifs <;> simp_all
  · intro e
    unfold sd_memory_free_run com_free
    cases rb_check_frozen b
    · simp
    · dsimp only
      split_ifs <;> simp_all
  · intro src sz d s n e
    unfold sd_memory_copy_run
    cases sd_check_null_block b <;>
    cases rb_check_frozen b <;> simp
    split_ifs <;> simp

/-- Witness for C17: an out-of-bounds `set_uint8`, a `set_string` with a null
byte, a `realloc!` with alignment 3, a `free!` of the freed block and a `copy!`
from a null source each raise and leave heap and block as they were. -/
theorem failed_call_keeps_state_witness :
    ((sd_set_run uint8_t heap_ff wrapped8 8 1).result = .error .OutOfBounds ∧
      (sd_set_run uint8_t heap_ff wrapped8 8 1).self = wrapped8 ∧
      (sd_set_run uint8_t heap_ff wrapped8 8 1).heap = heap_ff) ∧
    ((sd_set_string_run heap_ff wrapped8 0 [104, 0, 105] false).result
        = .error .HostConversion ∧
      (sd_set_string_run heap_ff wrapped8 0 [104, 0, 105] false).self = wrapped8 ∧
      (sd_set_string_run heap_ff wrapped8 0 [104, 0, 105] false).heap = heap_ff) ∧
    ((sd_memory_realloc_run heap_ff 8192 wrapped8 16 (some 3)).result
        = .error .InvalidArgument ∧
      (sd_memory_realloc_run heap_ff 8192 wrapped8 16 (some 3)).self = wrapped8 ∧
      (sd_memory_realloc_run heap_ff 8192 wrapped8 16 (some 3)).heap = heap_ff) ∧
    ((sd_memory_free_run heap_ff freed8).result = .error .DoubleFree ∧
      (sd_memory_free_run heap_ff freed8).self = freed8 ∧
      (sd_memory_free_run heap_ff freed8).heap = heap_ff) ∧
    ((sd_memory_copy_run heap_ff wrapped8 0 none none none none).result
        = .error .InvalidArgument ∧
      (sd_memory_copy_run heap_ff wrapped8 0 none none none none).self = wrapped8 ∧
      (sd_memory_copy_run heap_ff wrapped8 0 none none none none).heap = heap_ff) :=
  have t := failed_call_keeps_state heap_ff wrapped8
  have t4 := (failed_call_keeps_state heap_ff freed8).2.2.2.1 .DoubleFree rfl
  have t1 := t.1 uint8_t 8 1 .OutOfBounds rfl
  have t2 := t.2.1 0 [104, 0, 105] false .HostConversion rfl
  have t3 := t.2.2.1 8192 16 (some 3) .InvalidArgument rfl
  have t5 := t.2.2.2.2 0 none none none none .InvalidArgument rfl
  ⟨⟨rfl, t1.1, t1.2⟩, ⟨rfl, t2.1, t2.2⟩, ⟨rfl, t3.1, t3.2 (by decide)⟩, ⟨rfl, t4.1, t4.2⟩,
   ⟨rfl, t5.1, t5.2⟩⟩

/-! ## Copy -/

/-- The bounds checks of `copy!` pass and the call returns, in closed form:
live unfrozen destination, non-null source, explicit count. -/
theorem sd_memory_copy_run_ok (h : Heap) (b : Memory) (src : Nat) (sz sd_d sd_s : Option Nat)
    (n : Nat) (hlive : b.data ≠ 0) (hmut : b.frozen = false) (hsrc : src ≠ 0)
    (hN0 : b.bytesize ≠ 0) (hN : b.bytesize < 2 ^ 64)
    (hd : sd_d.getD 0 + n ≤ b.bytesize)
    (hs : ∀ size, sz = some size → size < 2 ^ 64 ∧ sd_s.getD 0 + n ≤ size) :
    sd_memory_copy_run h b src sz sd_d sd_s (some n) =
      ⟨if n = 0 ∨ src + sd_s.getD 0 = b.data + sd_d.getD 0 then h
        else { h with mem := memmove h.mem (b.data + sd_d.getD 0) (src + sd_s.getD 0) n },
       b, .ok ()⟩ := by
  have hwd : wadd (sd_d.getD 0) n = sd_d.getD 0 + n := wadd_eq_of_lt (by omega)
  have hchk : ¬ (sd_d.getD 0 + n > b.bytesize ∨ sd_d.getD 0 + n < sd_d.getD 0) := by omega
  cases sz with
  | none =>
    unfold sd_memory_copy_run sd_check_null_block rb_check_frozen
    simp only [hlive, hmut, hsrc, hN0, hwd, hchk, if_false, Bool.false_eq_true, Bool.not_true]
    split_ifs <;> rfl
  | some size =>
    obtain ⟨h1, h2⟩ := hs size rfl
    have hws : wadd (sd_s.getD 0) n = sd_s.getD 0 + n := wadd_eq_of_lt (by omega)
    have hb : (!(decide (sd_s.getD 0 > size) || decide (sd_s.getD 0 + n > size)
        || decide (sd_s.getD 0 + n < sd_s.getD 0))) = true := by
      simp
      omega
    unfold sd_memory_copy_run sd_check_null_block rb_check_frozen
    simp only [hlive, hmut, hsrc, hN0, hwd, hws, hb, hchk, if_false, Bool.false_eq_true,
      Bool.not_true]
    split_ifs <;> rfl

/-- C18: for a live unfrozen destination of size `N`, a non-null source and
offsets `d`, `s` and count `n` that pass the bounds checks, `copy!` succeeds,
the destination byte `d + i` is the byte the source held at `s + i` before the
call for every `i < n`, and every byte outside `[d, d + n)` of the destination
is unchanged, also when the two ranges overlap. -/
theorem sd_memory_copy_moves (h : Heap) (b : Memory) (src : Nat) (sz sd_d sd_s : Option Nat)
    (n : Nat) (hlive : b.data ≠ 0) (hmut : b.frozen = false) (hsrc : src ≠ 0)
    (hN0 : b.bytesize ≠ 0) (hN : b.bytesize < 2 ^ 64)
    (hd : sd_d.getD 0 + n ≤ b.bytesize)
    (hs : ∀ size, sz = some size → size < 2 ^ 64 ∧ sd_s.getD 0 + n ≤ size) :
    ∃ h1, sd_memory_copy h b src sz sd_d sd_s (some n) = .ok (h1, b) ∧
      (∀ i, i < n → h1.mem (b.data + sd_d.getD 0 + i) = h.mem (src + sd_s.getD 0 + i)) ∧
      (∀ x, ¬ (b.data + sd_d.getD 0 ≤ x ∧ x < b.data + sd_d.getD 0 + n) →
        h1.mem x = h.mem x) ∧
      h1.released = h.released := by
  have hrun := sd_memory_copy_run_ok h b src sz sd_d sd_s n hlive hmut hsrc hN0 hN hd hs
  have hst := sd_memory_copy_run_state h b src sz sd_d sd_s (some n)
  rw [hrun] at hst
  refine ⟨_, hst.symm, ?_, ?_, ?_⟩
  · intro i hi
    by_cases hskip : n = 0 ∨ src + sd_s.getD 0 = b.data + sd_d.getD 0
    · rw [if_pos hskip]
      rcases hskip with h0 | heq
      · omega
      · rw [heq]
    · rw [if_neg hskip]
      show memmove _ _ _ _ _ = _
      unfold memmove
      rw [if_pos ⟨by omega, by omega⟩, Nat.add_sub_cancel_left]
  · intro x hx
    by_cases hskip : n = 0 ∨ src + sd_s.getD 0 = b.data + sd_d.getD 0
    · rw [if_pos hskip]
    · rw [if_neg hskip]
      show memmove _ _ _ _ _ = _
      unfold memmove
      rw [if_neg hx]
  · split_ifs <;> rfl

/-- Witness for C18: the 10-byte block at `4096` holding `0..9`, copied onto
itself from offset 0 to offset 2 for 5 bytes, then holds
`0, 1, 0, 1, 2, 3, 4, 7, 8, 9`. -/
theorem sd_memory_copy_moves_witness :
    (∃ h1, sd_memory_copy heap_pattern wrapped10 4096 (some 10) (some 2) (some 0) (some 5)
        = .ok (h1, wrapped10) ∧
      (∀ i, i < 5 → h1.mem (wrapped10.data + (some 2).getD 0 + i)
        = heap_pattern.mem (4096 + (some 0).getD 0 + i)) ∧
      (∀ x, ¬ (wrapped10.data + (some 2).getD 0 ≤ x ∧ x < wrapped10.data + (some 2).getD 0 + 5) →
        h1.mem x = heap_pattern.mem x) ∧
      h1.released = heap_pattern.released) ∧
    (sd_memory_copy heap_pattern wrapped10 4096 (some 10) (some 2) (some 0) (some 5)).map
        (fun r => (List.range 10).map fun i => r.1.mem (r.2.data + i))
      = .ok [0, 1, 0, 1, 2, 3, 4, 7, 8, 9] :=
  ⟨sd_memory_copy_moves heap_pattern wrapped10 4096 (some 10) (some 2) (some 0) 5 (by decide)
      rfl (by decide) (by decide) (by decide) (by decide)
      (fun size hsz => by cases hsz; exact ⟨by norm_num, by decide⟩),
   by decide⟩

/-- C19 (defect): with a destination of size 10 and a source that reports a size
of 4, `copy!(source)` resolves the count to 10 and raises `OutOfBounds`
("Attempt to copy out of source bounds"); it does not fall back to the source's
4 bytes, and nothing is copied. The same holds for an explicit count of 10. -/
theorem copy_from_smaller_source_raises (h : Heap) :
    sd_memory_copy h wrapped10 8192 (some 4) none none none = .error .OutOfBounds ∧
    sd_memory_copy h wrapped10 8192 (some 4) none none (some 10) = .error .OutOfBounds ∧
    sd_memory_copy_run h wrapped10 8192 (some 4) none none none
      = ⟨h, wrapped10, .error .OutOfBounds⟩ := by
  refine ⟨?_, ?_, ?_⟩
  · simp [sd_memory_copy, sd_check_null_block, rb_check_frozen, wrapped10, wsub, wadd]
  · simp [sd_memory_copy, sd_check_null_block, rb_check_frozen, wrapped10, wadd]
  · simp [sd_memory_copy_run, sd_check_null_block, rb_check_frozen, wrapped10, wsub, wadd]

/-- C20: for a live unfrozen destination of size `N`, a non-null source without
a size, and a 64-bit destination offset `d` and explicit count `n`, `copy!`
raises `OutOfBounds` exactly when `d + n > N` over the natural numbers, leaving
the heap as it was; otherwise it succeeds and changes no byte outside the `N`
bytes of the destination. -/
theorem sd_memory_copy_raw_bounds (h : Heap) (b : Memory) (src : Nat) (sd_s : Option Nat)
    (d n : Nat) (hlive : b.data ≠ 0) (hmut : b.frozen = false) (hsrc : src ≠ 0)
    (hN0 : b.bytesize ≠ 0) (hN : b.bytesize < 2 ^ 64) (hd : d < 2 ^ 64) (hn : n < 2 ^ 64) :
    (sd_memory_copy h b src none (some d) sd_s (some n) = .error .OutOfBounds ↔
      b.bytesize < d + n) ∧
    (b.bytesize < d + n →
      sd_memory_copy_run h b src none (some d) sd_s (some n) = ⟨h, b, .error .OutOfBounds⟩) ∧
    (d + n ≤ b.bytesize →
      ∃ h1, sd_memory_copy h b src none (some d) sd_s (some n) = .ok (h1, b) ∧
        ∀ x, ¬ (b.data ≤ x ∧ x < b.data + b.bytesize) → h1.mem x = h.mem x) := by
  have hfail : b.bytesize < d + n →
      sd_memory_copy_run h b src none (some d) sd_s (some n) = ⟨h, b, .error .OutOfBounds⟩ := by
    intro hgt
    have hchk : wadd d n > b.bytesize ∨ wadd d n < d := by
      by_cases hwrap : d + n < 2 ^ 64
      · rw [wadd_eq_of_lt hwrap]; omega
      · right
        unfold wadd
        rw [Nat.mod_eq_sub_mod (by omega), Nat.mod_eq_of_lt (by omega)]
        omega
    unfold sd_memory_copy_run sd_check_null_block rb_check_frozen
    simp only [hlive, hmut, hsrc, hN0, if_false, Bool.false_eq_true, Bool.not_true,
      Option.getD_some, hchk, if_true]
  have hok : d + n ≤ b.bytesize →
      ∃ h1, sd_memory_copy h b src none (some d) sd_s (some n) = .ok (h1, b) ∧
        ∀ x, ¬ (b.data ≤ x ∧ x < b.data + b.bytesize) → h1.mem x = h.mem x := by
    intro hle
    have hrun := sd_memory_copy_run_ok h b src none (some d) sd_s n hlive hmut hsrc hN0 hN hle
      (fun size hsz => by cases hsz)
    have hst := sd_memory_copy_run_state h b src none (some d) sd_s (some n)
    rw [hrun] at hst
    refine ⟨_, hst.symm, ?_⟩
    intro x hx
    split_ifs
    · rfl
    · show memmove _ _ _ _ _ = _
      unfold memmove
      have hd' : (some d).getD 0 = d := rfl
      rw [hd', if_neg (by omega)]
  refine ⟨⟨?_, ?_⟩, hfail, hok⟩
  · intro herr
    by_contra hle
    obtain ⟨h1, hsucc, _⟩ := hok (by omega)
    rw [hsucc] at herr
    cases herr
  · intro hgt
    rw [← sd_memory_copy_run_state, hfail hgt]
    rfl

/-- Witness for C20: the 10-byte block at `4096`: offset 6 with count 4 is
accepted, offset 6 with count 5 and the wrapping count `2 ^ 64 - 1` are rejected. -/
theorem sd_memory_copy_raw_bounds_witness :
    (∃ h1, sd_memory_copy heap_pattern wrapped10 8192 none (some 6) none (some 4)
        = .ok (h1, wrapped10) ∧
      ∀ x, ¬ (wrapped10.data ≤ x ∧ x < wrapped10.data + wrapped10.bytesize) →
        h1.mem x = heap_pattern.mem x) ∧
    sd_memory_copy heap_pattern wrapped10 8192 none (some 6) none (some 5)
      = .error .OutOfBounds ∧
    sd_memory_copy_run heap_pattern wrapped10 8192 none (some 6) none (some (2 ^ 64 - 1))
      = ⟨heap_pattern, wrapped10, .error .OutOfBounds⟩ :=
  ⟨(sd_memory_copy_raw_bounds heap_pattern wrapped10 8192 none 6 4 (by decide) rfl (by decide)
      (by decide) (by decide) (by norm_num) (by norm_num)).2.2 (by decide),
   (sd_memory_copy_raw_bounds heap_pattern wrapped10 8192 none 6 5 (by decide) rfl (by decide)
      (by decide) (by decide) (by norm_num) (by norm_num)).1.2 (by decide),
   (sd_memory_copy_raw_bounds heap_pattern wrapped10 8192 none 6 (2 ^ 64 - 1) (by decide) rfl
      (by decide) (by decide) (by decide) (by norm_num) (by norm_num)).2.1 (by norm_num [wrapped10])⟩

/-! ## Zero-size destination -/

/-- C21 (counterexample): the freed block has size 0, and `copy!` into it raises
`NullBlock` ("Pointer is NULL"), not `RuntimeFault`. -/
theorem copy_into_freed_raises_null_block :
    freed8.bytesize = 0 ∧
    sd_memory_copy heap_ff freed8 8192 none none none none = .error .NullBlock ∧
    sd_memory_copy heap_ff freed8 8192 none none none none ≠ .error .RuntimeFault := by
  have hnull : sd_memory_copy heap_ff freed8 8192 none none none none = .error .NullBlock := rfl
  refine ⟨rfl, hnull, ?_⟩
  rw [hnull]
  intro hc
  cases hc

/-- C21 (amended): `copy!` into a block of size 0 always raises, leaving heap and
block as they were: `NullBlock` when the address is null, otherwise `Frozen`
when the block is frozen, otherwise `InvalidArgument` when the source pointer
is null, and `RuntimeFault` in the remaining case. -/
theorem sd_memory_copy_zero_size (h : Heap) (b : Memory) (src : Nat) (sz d s n : Option Nat)
    (hz : b.bytesize = 0) :
    sd_memory_copy_run h b src sz d s n =
      ⟨h, b, .error (if b.data = 0 then .NullBlock else if b.frozen then .Frozen
        else if src = 0 then .InvalidArgument else .RuntimeFault)⟩ ∧
    sd_memory_copy h b src sz d s n =
      .error (if b.data = 0 then .NullBlock else if b.frozen then .Frozen
        else if src = 0 then .InvalidArgument else .RuntimeFault) := by
  have hrun : sd_memory_copy_run h b src sz d s n =
      ⟨h, b, .error (if b.data = 0 then .NullBlock else if b.frozen then .Frozen
        else if src = 0 then .InvalidArgument else .RuntimeFault)⟩ := by
    unfold sd_memory_copy_run sd_check_null_block rb_check_frozen
    by_cases h0 : b.data = 0
    · simp [h0]
    · by_cases hf : b.frozen = true
      · simp [h0, hf]
      · by_cases hs : src = 0
        · simp [h0, hf, hs]
        · simp [h0, hf, hs, hz]
  refine ⟨hrun, ?_⟩
  rw [← sd_memory_copy_run_state, hrun]
  rfl

/-- Witness for C21: the freed block raises `NullBlock`; a record with a non-null
address and size 0 raises `RuntimeFault`. -/
theorem sd_memory_copy_zero_size_witness :
    (freed8.bytesize = 0 ∧
      sd_memory_copy heap_ff freed8 8192 none none none none = .error .NullBlock) ∧
    (empty_at_4096.bytesize = 0 ∧
      sd_memory_copy heap_ff empty_at_4096 8192 none none none none = .error .RuntimeFault) :=
  ⟨⟨rfl, (sd_memory_copy_zero_size heap_ff freed8 8192 none none none none rfl).2⟩,
   ⟨rfl, (sd_memory_copy_zero_size heap_ff empty_at_4096 8192 none none none none rfl).2⟩⟩

/-! ## Reading strings -/

theorem wsub_eq_of_le {a b : Nat} (ha : a < 2 ^ 64) (hb : b ≤ a) : wsub a b = a - b := by
  unfold wsub
  rw [Nat.mod_eq_of_lt ha, Nat.mod_eq_of_lt (by omega : b < 2 ^ 64)]
  have : a + 2 ^ 64 - b = (a - b) + 2 ^ 64 := by omega
  rw [this, Nat.add_mod_right, Nat.mod_eq_of_lt (by omega)]

/-- C22: on a live block of size `N`, for every offset `o < N` and every explicit
64-bit length `L`, `get_string(o, L)` returns the `min L (N - o)` bytes from
index `o` on, and never raises. -/
theorem sd_get_string_explicit (h : Heap) (b : Memory) (o L : Nat) (hlive : b.data ≠ 0)
    (hN : b.bytesize < 2 ^ 64) (ho : o < b.bytesize) (hL : L < 2 ^ 64) :
    sd_get_string h b o (some L) =
      .ok ((List.range (min L (b.bytesize - o))).map fun i => h.mem (b.data + o + i) % 256) := by
  have hsub : wsub b.bytesize o = b.bytesize - o := wsub_eq_of_le hN (by omega)
  have hlen : (if L = 2 ^ 64 - 1 ∨ wadd o L > b.bytesize ∨ wadd o L < o then
      wsub b.bytesize o else L) = min L (b.bytesize - o) := by
    by_cases hall : L = 2 ^ 64 - 1
    · rw [if_pos (Or.inl hall), hsub]; omega
    · by_cases hwrap : o + L < 2 ^ 64
      · rw [wadd_eq_of_lt hwrap]
        by_cases hgt : o + L > b.bytesize
        · rw [if_pos (Or.inr (Or.inl hgt)), hsub]; omega
        · rw [if_neg (by omega)]; omega
      · have hw : wadd o L = o + L - 2 ^ 64 := by
          unfold wadd
          rw [Nat.mod_eq_sub_mod (by omega), Nat.mod_eq_of_lt (by omega)]
        rw [if_pos (Or.inr (Or.inr (by rw [hw]; omega))), hsub]; omega
  unfold sd_get_string sd_check_null_block
  simp only [hlive, if_false]
  rw [if_neg (by omega)]
  simp only [hlen]
  rfl

/-- Witness for C22: on the block holding `hi\0world`, `get_string(3, 5)` is
`world` and `get_string(0, 2 ^ 64 - 1)` is all 8 bytes. -/
theorem sd_get_string_explicit_witness :
    (sd_get_string heap_hi_world wrapped8 3 (some 5) =
      .ok ((List.range (min 5 (wrapped8.bytesize - 3))).map
        fun i => heap_hi_world.mem (wrapped8.data + 3 + i) % 256)) ∧
    sd_get_string heap_hi_world wrapped8 3 (some 5) = .ok [119, 111, 114, 108, 100] ∧
    (sd_get_string heap_hi_world wrapped8 0 (some (2 ^ 64 - 1)) =
      .ok ((List.range (min (2 ^ 64 - 1) (wrapped8.bytesize - 0))).map
        fun i => heap_hi_world.mem (wrapped8.data + 0 + i) % 256)) ∧
    sd_get_string heap_hi_world wrapped8 0 (some (2 ^ 64 - 1))
      = .ok [104, 105, 0, 119, 111, 114, 108, 100] :=
  ⟨sd_get_string_explicit heap_hi_world wrapped8 3 5 (by decide) (by decide) (by decide)
      (by norm_num),
   by decide,
   sd_get_string_explicit heap_hi_world wrapped8 0 (2 ^ 64 - 1) (by decide) (by decide)
      (by decide) (by norm_num),
   by decide⟩

/-- C24: on a live block `get_string` at an offset at or past the size returns
the empty string for every length argument, and on a block with a null address
it raises `NullBlock` for every offset and length argument. -/
theorem sd_get_string_past_end (h : Heap) (b : Memory) (o : Nat) (L : Option Nat) :
    (b.data ≠ 0 → b.bytesize ≤ o → sd_get_string h b o L = .ok []) ∧
    (b.data = 0 → sd_get_string h b o L = .error .NullBlock) := by
  constructor
  · intro hlive ho
    unfold sd_get_string sd_check_null_block
    simp only [hlive, if_false]
    rw [if_pos ho]
  · intro h0
    unfold sd_get_string sd_check_null_block
    simp only [h0, if_true]

/-- Witness for C24: offsets 8 and 100 on the 8-byte block holding `hi\0world`,
and offset 0 on the freed block. -/
theorem sd_get_string_past_end_witness :
    sd_get_string heap_hi_world wrapped8 8 none = .ok [] ∧
    sd_get_string heap_hi_world wrapped8 100 (some 3) = .ok [] ∧
    sd_get_string heap_hi_world freed8 0 none = .error .NullBlock :=
  ⟨(sd_get_string_past_end heap_hi_world wrapped8 8 none).1 (by decide) (by decide),
   (sd_get_string_past_end heap_hi_world wrapped8 100 (some 3)).1 (by decide) (by decide),
   (sd_get_string_past_end heap_hi_world freed8 0 none).2 rfl⟩

/-- The scan loop stops at the first index that is at the size or holds a zero
byte, and passes only indices below the size that hold non-zero bytes. -/
theorem scan_nul_spec (m : Nat → Nat) (data N : Nat) :
    ∀ fuel start,
      start ≤ scan_nul m data N fuel start ∧
      scan_nul m data N fuel start ≤ start + fuel ∧
      (∀ j, start ≤ j → j < scan_nul m data N fuel start →
        j < N ∧ m (data + j) % 256 ≠ 0) ∧
      (scan_nul m data N fuel start = start + fuel ∨
        ¬ (scan_nul m data N fuel start < N ∧
            m (data + scan_nul m data N fuel start) % 256 ≠ 0)) := by
  intro fuel
  induction fuel with
  | zero =>
    intro start
    refine ⟨Nat.le_refl _, Nat.le_refl _, ?_, Or.inl rfl⟩
    intro j h1 h2
    simp only [scan_nul] at h2
    omega
  | succ fuel ih =>
    intro start
    by_cases hc : start < N ∧ m (data + start) % 256 ≠ 0
    · have hstep : scan_nul m data N (fuel + 1) start = scan_nul m data N fuel (start + 1) := by
        simp only [scan_nul, hc, and_self, if_true, ne_eq, not_false_eq_true]
      obtain ⟨h1, h2, h3, h4⟩ := ih (start + 1)
      rw [hstep]
      refine ⟨by omega, by omega, ?_, ?_⟩
      · intro j hj1 hj2
        by_cases hjs : j = start
        · rw [hjs]; exact hc
        · exact h3 j (by omega) hj2
      · rcases h4 with h4 | h4
        · left; omega
        · right; exact h4
    · have hstep : scan_nul m data N (fuel + 1) start = start := by
        simp only [scan_nul, hc, if_false]
      rw [hstep]
      refine ⟨Nat.le_refl _, by omega, ?_, Or.inr hc⟩
      intro j h1 h2
      omega

/-- C23: on a live block of size `N` and for an offset `o < N`, `get_string(o)`
with no length returns the bytes from index `o` up to the first zero byte or
the size: the returned bytes are non-zero, the string ends at index `N` or just
before a zero byte, and no longer run of non-zero bytes starts at `o`. -/
theorem sd_get_string_auto (h : Heap) (b : Memory) (o : Nat) (hlive : b.data ≠ 0)
    (hN : b.bytesize < 2 ^ 64) (ho : o < b.bytesize) :
    ∃ len, sd_get_string h b o none =
        .ok ((List.range len).map fun i => h.mem (b.data + o + i) % 256) ∧
      o + len ≤ b.bytesize ∧
      (∀ i, i < len → h.mem (b.data + o + i) % 256 ≠ 0) ∧
      (o + len = b.bytesize ∨ h.mem (b.data + o + len) % 256 = 0) ∧
      (∀ n, o + n ≤ b.bytesize → (∀ i, i < n → h.mem (b.data + o + i) % 256 ≠ 0) →
        n ≤ len) := by
  obtain ⟨h1, h2, h3, h4⟩ := scan_nul_spec h.mem b.data b.bytesize (b.bytesize - o) o
  have hend : scan_nul h.mem b.data b.bytesize (b.bytesize - o) o = b.bytesize ∨
      h.mem (b.data + scan_nul h.mem b.data b.bytesize (b.bytesize - o) o) % 256 = 0 := by
    rcases h4 with h4 | h4
    · left; omega
    · by_cases hlt : scan_nul h.mem b.data b.bytesize (b.bytesize - o) o < b.bytesize
      · right
        by_contra hne
        exact h4 ⟨hlt, hne⟩
      · left; omega
  have hsub : wsub (scan_nul h.mem b.data b.bytesize (b.bytesize - o) o) o =
      scan_nul h.mem b.data b.bytesize (b.bytesize - o) o - o :=
    wsub_eq_of_le (by omega) h1
  refine ⟨scan_nul h.mem b.data b.bytesize (b.bytesize - o) o - o, ?_, by omega, ?_, ?_, ?_⟩
  · unfold sd_get_string sd_check_null_block
    simp only [hlive, if_false]
    rw [if_neg (by omega)]
    simp only [hsub]
    rfl
  · intro i hi
    have := (h3 (o + i) (by omega) (by omega)).2
    rwa [← Nat.add_assoc] at this
  · rcases hend with he | he
    · left; omega
    · right
      have hidx : b.data + o + (scan_nul h.mem b.data b.bytesize (b.bytesize - o) o - o) =
          b.data + scan_nul h.mem b.data b.bytesize (b.bytesize - o) o := by omega
      rw [hidx]; exact he
  · intro n hn hall
    by_contra hgt
    rcases hend with he | he
    · omega
    · have hbad := hall (scan_nul h.mem b.data b.bytesize (b.bytesize - o) o - o) (by omega)
      have hidx : b.data + o + (scan_nul h.mem b.data b.bytesize (b.bytesize - o) o - o) =
          b.data + scan_nul h.mem b.data b.bytesize (b.bytesize - o) o := by omega
      rw [hidx] at hbad
      exact hbad he

/-- Witness for C23: on the block holding `hi\0world`, `get_string(0)` is `hi`
and `get_string(3)` is `world`, which ends at the size. -/
theorem sd_get_string_auto_witness :
    (∃ len, sd_get_string heap_hi_world wrapped8 0 none =
        .ok ((List.range len).map fun i => heap_hi_world.mem (wrapped8.data + 0 + i) % 256) ∧
      0 + len ≤ wrapped8.bytesize ∧
      (∀ i, i < len → heap_hi_world.mem (wrapped8.data + 0 + i) % 256 ≠ 0) ∧
      (0 + len = wrapped8.bytesize ∨ heap_hi_world.mem (wrapped8.data + 0 + len) % 256 = 0) ∧
      (∀ n, 0 + n ≤ wrapped8.bytesize →
        (∀ i, i < n → heap_hi_world.mem (wrapped8.data + 0 + i) % 256 ≠ 0) → n ≤ len)) ∧
    sd_get_string heap_hi_world wrapped8 0 none = .ok [104, 105] ∧
    sd_get_string heap_hi_world wrapped8 3 none = .ok [119, 111, 114, 108, 100] :=
  ⟨sd_get_string_auto heap_hi_world wrapped8 0 (by decide) (by decide) (by decide),
   by decide, by decide⟩

/-! ## Writing strings -/

/-- The macro `StringValueCStr` accepts a string without a zero byte. -/
theorem StringValueCStr_ok {s : List Nat} (hs : ∀ c ∈ s, c % 256 ≠ 0) :
    StringValueCStr s = .ok s := by
  unfold StringValueCStr
  have hany : s.any (fun c => c % 256 == 0) = false := by
    rw [List.any_eq_false]
    intro c hc
    simpa using hs c hc
  rw [hany]
  rfl

/-- On a live unfrozen block, for a string without a zero byte and an offset
below the size less the terminator, `set_string` returns, in closed form. -/
theorem sd_set_string_run_ok (h : Heap) (b : Memory) (o : Nat) (s : List Nat) (nt : Bool)
    (hlive : b.data ≠ 0) (hmut : b.frozen = false) (hN : b.bytesize < 2 ^ 64)
    (hs : ∀ c ∈ s, c % 256 ≠ 0) (ho : o + (if nt then 1 else 0) < b.bytesize) :
    ∃ h2, sd_set_string_run h b o s nt = ⟨h2, b, .ok s⟩ ∧ h2.released = h.released ∧
      h2.mem =
        (if nt then
          store (if 0 < min s.length (b.bytesize - o - (if nt then 1 else 0)) then
              write_bytes h.mem (b.data + o) s
                (min s.length (b.bytesize - o - (if nt then 1 else 0)))
            else h.mem)
            (b.data + (o + min s.length (b.bytesize - o - (if nt then 1 else 0)))) 1 0
        else
          (if 0 < min s.length (b.bytesize - o - (if nt then 1 else 0)) then
              write_bytes h.mem (b.data + o) s
                (min s.length (b.bytesize - o - (if nt then 1 else 0)))
            else h.mem)) := by
  have ht : (if nt then 1 else 0) ≤ 1 := by split_ifs <;> omega
  have hlen : wsub b.bytesize (if nt then 1 else 0) = b.bytesize - (if nt then 1 else 0) :=
    wsub_eq_of_le hN (by omega)
  have hlen2 : wsub (b.bytesize - (if nt then 1 else 0)) o =
      b.bytesize - (if nt then 1 else 0) - o := wsub_eq_of_le (by omega) (by omega)
  have hmin : (if s.length < b.bytesize - (if nt then 1 else 0) - o then s.length
      else b.bytesize - (if nt then 1 else 0) - o) =
      min s.length (b.bytesize - o - (if nt then 1 else 0)) := by
    split_ifs <;> omega
  unfold sd_set_string_run sd_check_null_block rb_check_frozen
  simp only [hlive, hmut, if_false, Bool.false_eq_true, StringValueCStr_ok hs, hlen, hlen2, hmin]
  rw [if_neg (by omega)]
  cases nt
  · refine ⟨_, rfl, ?_, ?_⟩
    · simp only [Bool.false_eq_true, if_false]
      split_ifs <;> rfl
    · simp only [Bool.false_eq_true, if_false]
      split_ifs <;> rfl
  · refine ⟨_, rfl, ?_, ?_⟩
    · simp only [if_true]
      split_ifs <;> rfl
    · simp only [if_true]
      split_ifs <;> rfl

/-- A byte of a string of bytes below 256 is unchanged by reduction modulo 256. -/
theorem getD_mod_byte {s : List Nat} (hs : ∀ c ∈ s, 0 < c ∧ c < 256) {i : Nat}
    (hi : i < s.length) : s.getD i 0 % 256 = s.getD i 0 := by
  have hmem : s.getD i 0 ∈ s := by
    rw [List.getD_eq_getElem?_getD, List.getElem?_eq_getElem hi, Option.getD_some]
    exact List.getElem_mem hi
  exact Nat.mod_eq_of_lt (hs _ hmem).2

/-- C25 (counterexample): `set_string(0, "h\0i")` on a live 4-byte block raises
(`StringValueCStr` rejects a string with a zero byte) and copies nothing: byte
0 still holds `0xFF`, not `h`. -/
theorem set_string_with_zero_byte_raises :
    (sd_set_string_run heap_ff wrapped4 0 [104, 0, 105] false).result
      = .error .HostConversion ∧
    (sd_set_string_run heap_ff wrapped4 0 [104, 0, 105] false).heap.mem (wrapped4.data + 0)
      = 255 ∧
    (sd_set_string heap_ff wrapped4 0 [104, 0, 105] false).map Prod.snd
      ≠ .ok [104, 0, 105] := by
  decide

/-- C25 (amended): on a live unfrozen block of size `N`, for a string `s` of
non-zero bytes, a flag `t` and an offset `o` with `o + t < N`, `set_string`
returns `s`, leaves the block record as it was, stores `s[i]` at index `o + i`
for the `n = min (len s) (N - o - t)` first bytes, stores zero at index `o + n`
when `t = 1`, changes no other byte, and writes no index at or past `N`. -/
theorem sd_set_string_copies (h : Heap) (b : Memory) (o : Nat) (s : List Nat) (nt : Bool)
    (hlive : b.data ≠ 0) (hmut : b.frozen = false) (hN : b.bytesize < 2 ^ 64)
    (hs : ∀ c ∈ s, 0 < c ∧ c < 256) (ho : o + (if nt then 1 else 0) < b.bytesize) :
    ∃ h1, sd_set_string h b o s nt = .ok (h1, s) ∧
      (sd_set_string_run h b o s nt).self = b ∧
      (∀ i, i < min s.length (b.bytesize - o - (if nt then 1 else 0)) →
        h1.mem (b.data + o + i) = s.getD i 0) ∧
      (nt = true →
        h1.mem (b.data + o + min s.length (b.bytesize - o - (if nt then 1 else 0))) = 0) ∧
      (∀ x, ¬ (b.data + o ≤ x ∧ x < b.data + o +
          min s.length (b.bytesize - o - (if nt then 1 else 0)) + (if nt then 1 else 0)) →
        h1.mem x = h.mem x) ∧
      o + min s.length (b.bytesize - o - (if nt then 1 else 0)) + (if nt then 1 else 0)
        ≤ b.bytesize ∧
      h1.released = h.released := by
  have hs' : ∀ c ∈ s, c % 256 ≠ 0 := by
    intro c hc
    have := hs c hc
    rw [Nat.mod_eq_of_lt this.2]
    omega
  obtain ⟨h2, hrun, hrel, hmem⟩ := sd_set_string_run_ok h b o s nt hlive hmut hN hs' ho
  refine ⟨h2, ?_, ?_, ?_, ?_, ?_, ?_, hrel⟩
  · unfold sd_set_string
    rw [hrun]
    rfl
  · rw [hrun]
  · intro i hi
    have hbyte : s.getD i 0 % 256 = s.getD i 0 := getD_mod_byte hs (by omega)
    rw [hmem]
    cases nt
    · simp only [Bool.false_eq_true, if_false] at hi ⊢
      rw [if_pos (by omega)]
      unfold write_bytes
      rw [if_pos ⟨by omega, by omega⟩, Nat.add_sub_cancel_left, hbyte]
    · simp only [if_true] at hi ⊢
      unfold store
      rw [if_neg (by omega), if_pos (by omega)]
      unfold write_bytes
      rw [if_pos ⟨by omega, by omega⟩, Nat.add_sub_cancel_left, hbyte]
  · intro hnt
    subst hnt
    rw [hmem]
    simp only [if_true]
    unfold store
    rw [if_pos ⟨by omega, by omega⟩]
    simp
  · intro x hx
    rw [hmem]
    cases nt
    · simp only [Bool.false_eq_true, if_false] at hx ⊢
      split_ifs
      · unfold write_bytes
        rw [if_neg (by omega)]
      · rfl
    · simp only [if_true] at hx ⊢
      unfold store
      rw [if_neg (by omega)]
      split_ifs
      · unfold write_bytes
        rw [if_neg (by omega)]
      · rfl
  · split_ifs at ho ⊢ <;> omega

/-- Witness for C25: `set_string(0, "hello", true)` on a live 4-byte block
leaves `hel` followed by a zero byte. -/
theorem sd_set_string_copies_witness :
    (∃ h1, sd_set_string heap_ff wrapped4 0 [104, 101, 108, 108, 111] true
        = .ok (h1, [104, 101, 108, 108, 111]) ∧
      (sd_set_string_run heap_ff wrapped4 0 [104, 101, 108, 108, 111] true).self = wrapped4 ∧
      (∀ i, i < min [104, 101, 108, 108, 111].length
          (wrapped4.bytesize - 0 - (if true then 1 else 0)) →
        h1.mem (wrapped4.data + 0 + i) = [104, 101, 108, 108, 111].getD i 0) ∧
      (true = true →
        h1.mem (wrapped4.data + 0 + min [104, 101, 108, 108, 111].length
          (wrapped4.bytesize - 0 - (if true then 1 else 0))) = 0) ∧
      (∀ x, ¬ (wrapped4.data + 0 ≤ x ∧ x < wrapped4.data + 0 +
          min [104, 101, 108, 108, 111].length
            (wrapped4.bytesize - 0 - (if true then 1 else 0)) + (if true then 1 else 0)) →
        h1.mem x = heap_ff.mem x) ∧
      0 + min [104, 101, 108, 108, 111].length
          (wrapped4.bytesize - 0 - (if true then 1 else 0)) + (if true then 1 else 0)
        ≤ wrapped4.bytesize ∧
      h1.released = heap_ff.released) ∧
    (sd_set_string heap_ff wrapped4 0 [104, 101, 108, 108, 111] true).map
        (fun r => rb_str_new r.1.mem wrapped4.data 5)
      = .ok [104, 101, 108, 0, 255] :=
  ⟨sd_set_string_copies heap_ff wrapped4 0 [104, 101, 108, 108, 111] true (by decide) rfl
      (by decide) (by decide) (by decide),
   by decide⟩

/-- C26 (counterexample): on a live 4-byte block full of `0xFF`,
`set_string(3, "x", true)` returns without writing: the byte at index
`3 + min 1 (4 - 3 - 1) = 3` is still `255`, although the terminator would fit
there; and `set_string(0, "h\0i", true)` raises and leaves the byte at index
`0 + min 3 (4 - 0 - 1) = 3` at `255`. -/
theorem set_string_terminator_not_written :
    (sd_set_string heap_ff wrapped4 3 [120] true).map
        (fun r => r.1.mem (wrapped4.data + 3 + min 1 (wrapped4.bytesize - 3 - 1)))
      = .ok 255 ∧
    (sd_set_string_run heap_ff wrapped4 0 [104, 0, 105] true).result
      = .error .HostConversion ∧
    (sd_set_string_run heap_ff wrapped4 0 [104, 0, 105] true).heap.mem
        (wrapped4.data + 0 + min 3 (wrapped4.bytesize - 0 - 1))
      = 255 := by
  decide

/-- C26 (amended): on a live unfrozen block of size `N`, for a string `s` without
a zero byte and an offset `o` with `o + 1 < N`, `set_string(o, s, true)`
succeeds and the byte at index `o + min (len s) (N - o - 1)` is zero
afterwards. -/
theorem sd_set_string_terminator (h : Heap) (b : Memory) (o : Nat) (s : List Nat)
    (hlive : b.data ≠ 0) (hmut : b.frozen = false) (hN : b.bytesize < 2 ^ 64)
    (hs : ∀ c ∈ s, c % 256 ≠ 0) (ho : o + 1 < b.bytesize) :
    ∃ h1, sd_set_string h b o s true = .ok (h1, s) ∧
      h1.mem (b.data + o + min s.length (b.bytesize - o - 1)) = 0 := by
  obtain ⟨h2, hrun, _, hmem⟩ := sd_set_string_run_ok h b o s true hlive hmut hN hs
    (by simpa using ho)
  refine ⟨h2, ?_, ?_⟩
  · unfold sd_set_string
    rw [hrun]
    rfl
  · rw [hmem]
    simp only [if_true]
    unfold store
    rw [if_pos ⟨by omega, by omega⟩]
    simp

/-- Witness for C26: `set_string(1, "xy", true)` on a live 4-byte block. -/
theorem sd_set_string_terminator_witness :
    ∃ h1, sd_set_string heap_ff wrapped4 1 [120, 121] true = .ok (h1, [120, 121]) ∧
      h1.mem (wrapped4.data + 1 + min [120, 121].length (wrapped4.bytesize - 1 - 1)) = 0 :=
  sd_set_string_terminator heap_ff wrapped4 1 [120, 121] (by decide) rfl (by decide)
    (by decide) (by decide)

/-! ## Alignment arithmetic -/

/-- Without wrap-around `align_size` rounds up to a multiple of the alignment. -/
theorem align_size_eq {size k : Nat} (hk : k < 64) (hfit : size + 2 ^ k - 1 < 2 ^ 64) :
    align_size size (2 ^ k) = 2 ^ k * ((size + (2 ^ k - 1)) / 2 ^ k) := by
  have hlt := two_pow_lt_word hk
  have hpos : 0 < 2 ^ k := Nat.two_pow_pos k
  unfold align_size
  rw [and_mask_eq hk (wadd_lt _ _), wsub_one_eq hpos hlt, wadd_eq_of_lt (by omega)]

/-- Without wrap-around `align_size` gives a value that is not below the size and
less than one alignment above it. -/
theorem align_size_bounds {size k : Nat} (hk : k < 64) (hfit : size + 2 ^ k - 1 < 2 ^ 64) :
    size ≤ align_size size (2 ^ k) ∧ align_size size (2 ^ k) < size + 2 ^ k := by
  have hpos : 0 < 2 ^ k := Nat.two_pow_pos k
  rw [align_size_eq hk hfit]
  have h1 := Nat.div_add_mod (size + (2 ^ k - 1)) (2 ^ k)
  have h2 := Nat.mod_lt (size + (2 ^ k - 1)) hpos
  omega

/-- C27: for every 64-bit `n`, `is_power_of_two n` holds exactly when `n ≠ 0` and
`n & (n - 1) = 0`, and exactly when `n = 2 ^ k` for some `k < 64`. -/
theorem is_power_of_two_iff (n : Nat) (hn : n < 2 ^ 64) :
    (is_power_of_two n = true ↔ (n ≠ 0 ∧ n &&& (n - 1) = 0)) ∧
    (is_power_of_two n = true ↔ ∃ k, k < 64 ∧ n = 2 ^ k) := by
  constructor
  · by_cases h0 : n = 0
    · subst h0
      constructor
      · intro h; exact absurd h (by decide)
      · intro h; exact absurd rfl h.1
    · have hpos : 0 < n := Nat.pos_of_ne_zero h0
      unfold is_power_of_two
      rw [wsub_one_eq hpos hn]
      simp only [Bool.and_eq_true, beq_iff_eq, bne_iff_ne, ne_eq]
      constructor
      · intro h; exact ⟨h.2, h.1⟩
      · intro h; exact ⟨h.2, h.1⟩
  · constructor
    · intro h
      exact two_pow_of_is_power_of_two hn h
    · intro ⟨k, hk, hnk⟩
      rw [hnk]
      exact is_power_of_two_two_pow hk

/-- Witness for C27: 1 and 4096 are accepted, 0 and 3 are rejected. -/
theorem is_power_of_two_iff_witness :
    (is_power_of_two 4096 = true ↔ ∃ k, k < 64 ∧ 4096 = 2 ^ k) ∧
    is_power_of_two 4096 = true ∧ is_power_of_two 1 = true ∧
    is_power_of_two 0 = false ∧ is_power_of_two 3 = false :=
  ⟨(is_power_of_two_iff 4096 (by norm_num)).2, by decide, by decide, by decide, by decide⟩

/-- C28: for a power-of-two alignment `a = 2 ^ k` and a size with
`size + a - 1 < 2 ^ 64`, `align_size size a` is `(size + (a - 1)) & ~(a - 1)`
and is the least multiple of `a` that is not below `size`: it is divisible by
`a`, not below `size`, less than `size + a`, and not above any multiple of `a`
that is not below `size`. -/
theorem align_size_least_multiple (size k : Nat) (hk : k < 64)
    (hfit : size + 2 ^ k - 1 < 2 ^ 64) :
    align_size size (2 ^ k) = (size + (2 ^ k - 1)) &&& (2 ^ 64 - 1 - (2 ^ k - 1)) ∧
    align_size size (2 ^ k) % 2 ^ k = 0 ∧
    size ≤ align_size size (2 ^ k) ∧
    align_size size (2 ^ k) < size + 2 ^ k ∧
    ∀ m, m % 2 ^ k = 0 → size ≤ m → align_size size (2 ^ k) ≤ m := by
  have hlt := two_pow_lt_word hk
  have hpos : 0 < 2 ^ k := Nat.two_pow_pos k
  have hb := align_size_bounds hk hfit
  refine ⟨?_, ?_, hb.1, hb.2, ?_⟩
  · unfold align_size
    rw [wsub_one_eq hpos hlt, wadd_eq_of_lt (by omega), wnot_eq (by omega)]
  · rw [align_size_eq hk hfit]
    exact Nat.mul_mod_right _ _
  · intro m hm hle
    rw [align_size_eq hk hfit]
    have hmq : m = 2 ^ k * (m / 2 ^ k) := by
      have := Nat.div_add_mod m (2 ^ k)
      omega
    have hdiv : (size + (2 ^ k - 1)) / 2 ^ k ≤ m / 2 ^ k := by
      have hle' : size + (2 ^ k - 1) ≤ 2 ^ k * (m / 2 ^ k) + (2 ^ k - 1) := by
        rw [← hmq]; omega
      have h1 : (size + (2 ^ k - 1)) / 2 ^ k ≤ (2 ^ k * (m / 2 ^ k) + (2 ^ k - 1)) / 2 ^ k :=
        Nat.div_le_div_right hle'
      have h2 : (2 ^ k * (m / 2 ^ k) + (2 ^ k - 1)) / 2 ^ k = m / 2 ^ k := by
        rw [Nat.mul_add_div hpos, Nat.div_eq_of_lt (by omega : 2 ^ k - 1 < 2 ^ k), Nat.add_zero]
      rw [h2] at h1
      exact h1
    calc 2 ^ k * ((size + (2 ^ k - 1)) / 2 ^ k) ≤ 2 ^ k * (m / 2 ^ k) :=
          Nat.mul_le_mul_left _ hdiv
      _ = m := hmq.symm

/-- Witness for C28: size 13 and alignment 16 give 16. -/
theorem align_size_least_multiple_witness :
    align_size 13 (2 ^ 4) = (13 + (2 ^ 4 - 1)) &&& (2 ^ 64 - 1 - (2 ^ 4 - 1)) ∧
    align_size 13 (2 ^ 4) % 2 ^ 4 = 0 ∧
    13 ≤ align_size 13 (2 ^ 4) ∧
    align_size 13 (2 ^ 4) < 13 + 2 ^ 4 ∧
    (∀ m, m % 2 ^ 4 = 0 → 13 ≤ m → align_size 13 (2 ^ 4) ≤ m) ∧
    align_size 13 (2 ^ 4) = 16 :=
  have t := align_size_least_multiple 13 4 (by decide) (by norm_num)
  ⟨t.1, t.2.1, t.2.2.1, t.2.2.2.1, t.2.2.2.2, by decide⟩

/-- C29 (counterexample): `align_size(2 ^ 64 - 1)` with the default alignment, and
with alignment 8 given, returns 0, which is smaller than the size. -/
theorem sd_align_size_wraps :
    sd_align_size (2 ^ 64 - 1) none = .ok 0 ∧
    sd_align_size (2 ^ 64 - 1) (some 8) = .ok 0 ∧
    0 < 2 ^ 64 - 1 := by
  decide

/-- C29 (amended): for a 64-bit size and alignment, the public `align_size`
raises `InvalidArgument` exactly when an alignment is given that is not a power
of two; otherwise it returns `align_size` of the size and the alignment, 8 when
none is given, and the result is not below the size when
`size + alignment - 1 < 2 ^ 64`. -/
theorem sd_align_size_spec (size : Nat) (al : Option Nat)
    (hal : ∀ a, al = some a → a < 2 ^ 64) :
    (sd_align_size size al = .error .InvalidArgument ↔
      ∃ a, al = some a ∧ is_power_of_two a = false) ∧
    ((∀ a, al = some a → is_power_of_two a = true) →
      sd_align_size size al = .ok (align_size size (al.getD 8)) ∧
      (size + al.getD 8 - 1 < 2 ^ 64 → size ≤ align_size size (al.getD 8))) := by
  cases al with
  | none =>
    refine ⟨⟨?_, ?_⟩, ?_⟩
    · intro h; cases h
    · intro ⟨a, ha, _⟩; cases ha
    · intro _
      refine ⟨rfl, ?_⟩
      intro hfit
      exact (align_size_bounds (k := 3) (by decide) hfit).1
  | some a =>
    have ha := hal a rfl
    by_cases hpow : is_power_of_two a = true
    · refine ⟨⟨?_, ?_⟩, ?_⟩
      · intro h
        simp [sd_align_size, hpow] at h
      · intro ⟨a', ha', hf⟩
        cases ha'
        rw [hpow] at hf
        cases hf
      · intro _
        refine ⟨by simp [sd_align_size, hpow], ?_⟩
        intro hfit
        obtain ⟨k, hk, rfl⟩ := two_pow_of_is_power_of_two ha hpow
        exact (align_size_bounds hk hfit).1
    · have hf : is_power_of_two a = false := by simpa using hpow
      refine ⟨⟨fun _ => ⟨a, rfl, hf⟩, fun _ => by simp [sd_align_size, hf]⟩, ?_⟩
      intro hall
      exact absurd (hall a rfl) hpow

/-- Witness for C29: size 13 with alignment 16 gives 16, with no alignment gives
16, and with alignment 3 raises. -/
theorem sd_align_size_spec_witness :
    (sd_align_size 13 (some 16) = .ok (align_size 13 ((some 16).getD 8)) ∧
      13 ≤ align_size 13 ((some 16).getD 8)) ∧
    (sd_align_size 13 none = .ok (align_size 13 ((none : Option Nat).getD 8)) ∧
      13 ≤ align_size 13 ((none : Option Nat).getD 8)) ∧
    sd_align_size 13 (some 3) = .error .InvalidArgument :=
  have t1 := (sd_align_size_spec 13 (some 16) (fun a ha => by cases ha; norm_num)).2
    (fun a ha => by cases ha; decide)
  have t2 := (sd_align_size_spec 13 none (fun a ha => by cases ha)).2
    (fun a ha => by cases ha)
  have t3 := (sd_align_size_spec 13 (some 3) (fun a ha => by cases ha; norm_num)).1.2
    ⟨3, rfl, by decide⟩
  ⟨⟨t1.1, t1.2 (by decide)⟩, ⟨t2.1, t2.2 (by decide)⟩, t3⟩

/-! ## Unsigned fixed-width kinds -/

/-- The macro `NUM2UINT` returns an `Integer` in `0 .. UINT_MAX` unchanged. -/
theorem NUM2UINT_of_range {v : Int} (h0 : 0 ≤ v) (h1 : v ≤ 2 ^ 32 - 1) :
    NUM2UINT v = .ok v.toNat := by
  unfold NUM2UINT
  rw [if_neg (by omega)]
  congr 1
  omega

/-- C30: on a live unfrozen block, for an in-bounds offset and an integer `v`
with `0 ≤ v ≤ UINT_MAX`, `set_uint8` followed by `get_uint8` returns
`v mod 2 ^ 8`, `set_uint16` followed by `get_uint16` returns `v mod 2 ^ 16`, and
`set_uint32` followed by `get_uint32` returns `v mod 2 ^ 32`: for each of the
three kinds `K`, the value read back is `v mod 2 ^ (8 * sizeof K)`. -/
theorem set_uint_get_uint (K : ScalarKind) (h : Heap) (b : Memory) (o : Nat) (v : Int)
    (hK : K = uint8_t ∨ K = uint16_t ∨ K = uint32_t)
    (hlive : b.data ≠ 0) (hmut : b.frozen = false) (hN : b.bytesize < 2 ^ 64)
    (hle : o + K.size ≤ b.bytesize) (h0 : 0 ≤ v) (h1 : v ≤ 2 ^ 32 - 1) :
    ((sd_set K h b o v).bind fun r => sd_get K r.1 b o) = .ok (v % 2 ^ (8 * K.size)) := by
  have hconv := NUM2UINT_of_range h0 h1
  rcases hK with rfl | rfl | rfl
  · have hof : uint8_t.of_num v = .ok (v.toNat % 256 ^ 1) := by
      show SD_NUM_TO_UINT8 v = _
      unfold SD_NUM_TO_UINT8
      rw [hconv]; rfl
    rw [sd_set_ok uint8_t h b o v _ hlive hmut hN (by decide) hle hof]
    simp only [Except.bind]
    rw [sd_get_ok uint8_t _ b o hlive hN (by decide) hle]
    simp only [load_store]
    show Except.ok (UINT2NUM _) = _
    unfold UINT2NUM
    congr 1
    show ((v.toNat % 256 ^ 1 % 256 ^ 1 : Nat) : Int) = v % 2 ^ (8 * 1)
    norm_num
    omega
  · have hof : uint16_t.of_num v = .ok (v.toNat % 256 ^ 2) := by
      show SD_NUM_TO_UINT16 v = _
      unfold SD_NUM_TO_UINT16
      rw [hconv]; rfl
    rw [sd_set_ok uint16_t h b o v _ hlive hmut hN (by decide) hle hof]
    simp only [Except.bind]
    rw [sd_get_ok uint16_t _ b o hlive hN (by decide) hle]
    simp only [load_store]
    show Except.ok (UINT2NUM _) = _
    unfold UINT2NUM
    congr 1
    show ((v.toNat % 256 ^ 2 % 256 ^ 2 : Nat) : Int) = v % 2 ^ (8 * 2)
    norm_num
    omega
  · have hof : uint32_t.of_num v = .ok (v.toNat % 256 ^ 4) := by
      show SD_NUM_TO_UINT32 v = _
      unfold SD_NUM_TO_UINT32
      rw [hconv]; rfl
    rw [sd_set_ok uint32_t h b o v _ hlive hmut hN (by decide) hle hof]
    simp only [Except.bind]
    rw [sd_get_ok uint32_t _ b o hlive hN (by decide) hle]
    simp only [load_store]
    show Except.ok (UINT2NUM _) = _
    unfold UINT2NUM
    congr 1
    show ((v.toNat % 256 ^ 4 % 256 ^ 4 : Nat) : Int) = v % 2 ^ (8 * 4)
    norm_num
    omega

/-- Witness for C30: the value 70000 at offset 4 of a live 8-byte block reads
back as 112 through `uint8`, 4464 through `uint16` and 70000 through `uint32`. -/
theorem set_uint_get_uint_witness :
    (((sd_set uint8_t heap_ff wrapped8 4 70000).bind fun r => sd_get uint8_t r.1 wrapped8 4)
        = .ok (70000 % 2 ^ (8 * uint8_t.size)) ∧
      ((sd_set_uint8 heap_ff wrapped8 4 70000).bind fun r => sd_get_uint8 r.1 wrapped8 4)
        = .ok 112) ∧
    (((sd_set uint16_t heap_ff wrapped8 4 70000).bind fun r => sd_get uint16_t r.1 wrapped8 4)
        = .ok (70000 % 2 ^ (8 * uint16_t.size)) ∧
      ((sd_set_uint16 heap_ff wrapped8 4 70000).bind fun r => sd_get_uint16 r.1 wrapped8 4)
        = .ok 4464) ∧
    (((sd_set uint32_t heap_ff wrapped8 4 70000).bind fun r => sd_get uint32_t r.1 wrapped8 4)
        = .ok (70000 % 2 ^ (8 * uint32_t.size)) ∧
      ((sd_set_uint32 heap_ff wrapped8 4 70000).bind fun r => sd_get_uint32 r.1 wrapped8 4)
        = .ok 70000) :=
  ⟨⟨set_uint_get_uint uint8_t heap_ff wrapped8 4 70000 (Or.inl rfl) (by decide) rfl
      (by decide) (by decide) (by decide) (by decide), by decide⟩,
   ⟨set_uint_get_uint uint16_t heap_ff wrapped8 4 70000 (Or.inr (Or.inl rfl)) (by decide) rfl
      (by decide) (by decide) (by decide) (by decide), by decide⟩,
   ⟨set_uint_get_uint uint32_t heap_ff wrapped8 4 70000 (Or.inr (Or.inr rfl)) (by decide) rfl
      (by decide) (by decide) (by decide) (by decide), by decide⟩⟩


/-! ## Native-width signed kinds -/

/-- C31 (defect): on every heap, `set_long(0, 2 ^ 62)` on a live 8-byte block
stores the word `2 ^ 62`, and `get_long(0)` then returns `-2 ^ 62`: `LONG2FIX`
shifts the top bit of the stored `long` out. The same happens for `ptrdiff_t`
and `intptr_t`. -/
theorem set_long_get_long_beyond_fixnum (h : Heap) :
    ((sd_set_long h wrapped8 0 (2 ^ 62)).map fun r => load r.1.mem (wrapped8.data + 0) 8)
      = .ok (2 ^ 62) ∧
    ((sd_set_long h wrapped8 0 (2 ^ 62)).bind fun r => sd_get_long r.1 wrapped8 0)
      = .ok (-(2 ^ 62)) ∧
    ((sd_set_ptrdiff_t h wrapped8 0 (2 ^ 62)).bind fun r => sd_get_ptrdiff_t r.1 wrapped8 0)
      = .ok (-(2 ^ 62)) ∧
    ((sd_set_intptr_t h wrapped8 0 (2 ^ 62)).bind fun r => sd_get_intptr_t r.1 wrapped8 0)
      = .ok (-(2 ^ 62)) := by
  refine ⟨?_, ?_, ?_, ?_⟩
  · unfold sd_set_long
    rw [sd_set_ok long h wrapped8 0 (2 ^ 62) (2 ^ 62) (by decide) rfl (by decide) (by decide)
      (by decide) (by decide)]
    have hsz : long.size = 8 := rfl
    simp only [Except.map, hsz, load_store]
    decide
  · unfold sd_set_long sd_get_long
    rw [sd_set_ok long h wrapped8 0 (2 ^ 62) (2 ^ 62) (by decide) rfl (by decide) (by decide)
      (by decide) (by decide)]
    simp only [Except.bind]
    rw [sd_get_ok long _ wrapped8 0 (by decide) (by decide) (by decide) (by decide)]
    simp only [load_store]
    decide
  · unfold sd_set_ptrdiff_t sd_get_ptrdiff_t
    rw [sd_set_ok ptrdiff_t h wrapped8 0 (2 ^ 62) (2 ^ 62) (by decide) rfl (by decide)
      (by decide) (by decide) (by decide)]
    simp only [Except.bind]
    rw [sd_get_ok ptrdiff_t _ wrapped8 0 (by decide) (by decide) (by decide) (by decide)]
    simp only [load_store]
    decide
  · unfold sd_set_intptr_t sd_get_intptr_t
    rw [sd_set_ok intptr_t h wrapped8 0 (2 ^ 62) (2 ^ 62) (by decide) rfl (by decide)
      (by decide) (by decide) (by decide)]
    simp only [Except.bind]
    rw [sd_get_ok intptr_t _ wrapped8 0 (by decide) (by decide) (by decide) (by decide)]
    simp only [load_store]
    decide

/-! ## Reallocation with the alignment given -/

/-- C32 (counterexample): `realloc!(8, 8)` on the borrowed 8-byte block at `4096`
whose alignment is 8, with the alignment given, returns at once: heap and block
are unchanged, so the block is still at `4096` and still has no release
callback; it is not backed by a block it owns. -/
theorem realloc_same_alignment_given_returns_early :
    sd_memory_realloc heap_ff 8192 wrapped8 8 (some 8) = .ok (heap_ff, wrapped8) ∧
    wrapped8.data = 4096 ∧ wrapped8.dfree = false ∧
    (sd_memory_realloc heap_ff 8192 wrapped8 8 (some 8)).map (fun r => r.2.dfree)
      ≠ .ok true :=
  ⟨rfl, rfl, rfl, by decide⟩

/-- C32 (amended): on an unfrozen block, `realloc!(size, a)` with a size of at
least 1, a power-of-two alignment `a` given and a non-null allocator pointer
reallocates whenever `a` differs from the current alignment or `size` from the
current size, also when the sizes are the same: the block then has the address
`com_malloc` returned, the release callback set, the size `size` and the
alignment `a`. When `a` is the current alignment and `size` the current size,
the call returns at once with heap and block unchanged. -/
theorem sd_memory_realloc_alignment_given (h : Heap) (p : Nat) (b : Memory) (size a : Nat)
    (hmut : b.frozen = false) (hs : 1 ≤ size) (hpow : is_power_of_two a = true) (hp : p ≠ 0)
    (hown : b.dfree = true → b.data ≠ 0) :
    (a ≠ b.alignment ∨ b.bytesize ≠ size →
      ∃ h1, sd_memory_realloc h p b size (some a) =
          .ok (h1, { b with data := align_ptr (p + 8) a, dfree := true, bytesize := size,
                            alignment := a }) ∧
        (b.dfree = false → h1.released = h.released)) ∧
    (a = b.alignment ∧ b.bytesize = size →
      sd_memory_realloc h p b size (some a) = .ok (h, b) ∧
      sd_memory_realloc_run h p b size (some a) = ⟨h, b, .ok ()⟩) := by
  constructor
  · intro hdiff
    have hne : ¬ (b.bytesize = size ∧ (some a).getD b.alignment = b.alignment) := by
      intro hc
      rcases hdiff with hd | hd
      · exact hd hc.2
      · exact hd hc.1
    obtain ⟨h1, hrun, _, hrel, _⟩ :=
      sd_memory_realloc_run_eq h p b size (some a) hmut hne hpow hs hp hown
    have hst := sd_memory_realloc_run_state h p b size (some a)
    rw [hrun] at hst
    exact ⟨h1, hst.symm, hrel⟩
  · intro hsame
    obtain ⟨ha, hsz⟩ := hsame
    subst hsz
    subst ha
    constructor
    · unfold sd_memory_realloc rb_check_frozen
      simp only [hmut, Option.getD, and_self, if_true, Bool.false_eq_true, if_false]
    · unfold sd_memory_realloc_run rb_check_frozen
      simp only [hmut, Option.getD, and_self, if_true, Bool.false_eq_true, if_false]

/-- Witness for C32: the borrowed 8-byte block at `4096` with alignment 8, the
allocator returning `8192`: `realloc!(8, 16)` keeps the size and moves the block
to `8208`, owned; `realloc!(8, 8)` changes nothing. -/
theorem sd_memory_realloc_alignment_given_witness :
    (∃ h1, sd_memory_realloc heap_pattern 8192 wrapped8 8 (some 16) =
        .ok (h1, { wrapped8 with data := align_ptr (8192 + 8) 16, dfree := true, bytesize := 8,
                                 alignment := 16 }) ∧
      (wrapped8.dfree = false → h1.released = heap_pattern.released)) ∧
    align_ptr (8192 + 8) 16 = 8208 ∧
    (sd_memory_realloc heap_pattern 8192 wrapped8 8 (some 8) = .ok (heap_pattern, wrapped8) ∧
      sd_memory_realloc_run heap_pattern 8192 wrapped8 8 (some 8)
        = ⟨heap_pattern, wrapped8, .ok ()⟩) :=
  ⟨(sd_memory_realloc_alignment_given heap_pattern 8192 wrapped8 8 16 rfl (by decide)
      (by decide) (by decide) (by decide)).1 (Or.inl (by decide)),
   by decide,
   (sd_memory_realloc_alignment_given heap_pattern 8192 wrapped8 8 8 rfl (by decide)
      (by decide) (by decide) (by decide)).2 ⟨by decide, by decide⟩⟩

/-- C33 (defect): `realloc!(8, 16)` on the freed block, with the allocator
returning the base address `4096`, yields the owned block at `4112` of size 8,
past the 16 zero-initialised bytes: on every heap the block's first byte is the
byte the heap already held at `4112`, and on a heap full of `0xFF` it reads
`255`, not `0`. A following `free!` succeeds. -/
theorem realloc_of_freed_not_zeroed (h : Heap) :
    sd_memory_free h wrapped8 = .ok (h, freed8) ∧
    heap_returns 4096 (align_size (wadd 8 8) 16) ∧
    (sd_memory_realloc h 4096 freed8 8 (some 16)).map Prod.snd
      = .ok ⟨4112, true, 8, 16, false⟩ ∧
    (sd_memory_realloc h 4096 freed8 8 (some 16)).map (fun r => r.1.mem (r.2.data + 0))
      = .ok (h.mem 4112) ∧
    ((sd_memory_realloc heap_ff 4096 freed8 8 (some 16)).bind fun r => sd_get_uint8 r.1 r.2 0)
      = .ok 255 ∧
    ((sd_memory_realloc heap_ff 4096 freed8 8 (some 16)).bind fun r =>
        (sd_memory_free r.1 r.2).map Prod.snd)
      = .ok ⟨0, false, 0, 16, false⟩ := by
  have hq : align_ptr (4096 + 8) 16 = 4112 := by decide
  have hn : align_size (wadd 8 8) 16 = 16 := by decide
  have hpow : is_power_of_two 16 = true := by decide
  refine ⟨rfl, by decide, ?_, ?_, by decide, by decide⟩
  · simp [sd_memory_realloc, rb_check_frozen, com_malloc, Except.map, freed8, hpow, hq]
  · simp [sd_memory_realloc, rb_check_frozen, com_malloc, Except.map, freed8, hpow, hq, hn,
      store, xcalloc]

/-- C34 (defect): `realloc!(8, 16)` on the live 4-byte block at `4096`, with the
allocator returning the base address `8192`, yields the block at `8208` of size
8, past the 16 zero-initialised bytes: the first 4 bytes are the copy, and on
every heap byte 4 of the new block is the byte the heap already held at `8212`;
on a heap full of `0xFF` bytes 4 to 7 read `255`, not `0`. -/
theorem realloc_grown_bytes_not_zeroed (h : Heap) :
    heap_returns 8192 (align_size (wadd 8 8) 16) ∧
    (sd_memory_realloc h 8192 wrapped4 8 (some 16)).map Prod.snd
      = .ok ⟨8208, true, 8, 16, false⟩ ∧
    (sd_memory_realloc h 8192 wrapped4 8 (some 16)).map (fun r => r.1.mem (r.2.data + 4))
      = .ok (h.mem 8212) ∧
    ((sd_memory_realloc heap_ff 8192 wrapped4 8 (some 16)).bind fun r =>
        (List.range 8).mapM fun i => sd_get_uint8 r.1 r.2 i)
      = .ok [255, 255, 255, 255, 255, 255, 255, 255] ∧
    ((sd_memory_realloc heap_pattern 8192 wrapped4 8 (some 16)).bind fun r =>
        (List.range 8).mapM fun i => sd_get_uint8 r.1 r.2 i)
      = .ok [0, 1, 2, 3, 20, 21, 22, 23] := by
  have hq : align_ptr (8192 + 8) 16 = 8208 := by decide
  have hn : align_size (wadd 8 8) 16 = 16 := by decide
  have hpow : is_power_of_two 16 = true := by decide
  refine ⟨by decide, ?_, ?_, by decide, by decide⟩
  · simp [sd_memory_realloc, rb_check_frozen, com_malloc, Except.map, wrapped4, hpow, hq]
  · simp [sd_memory_realloc, rb_check_frozen, com_malloc, Except.map, wrapped4, hpow, hq, hn,
      store, xcalloc, memmove]

/-! ## Frame of the typed accessors -/

/-- What a typed setter that returns has done: it stored the converted value at
the offset, and returned its argument. -/
theorem sd_set_inv {K : ScalarKind} {h : Heap} {b : Memory} {o : Nat} {v : Int}
    {h1 : Heap} {r : Int} (hok : sd_set K h b o v = .ok (h1, r)) :
    ∃ bits, h1 = { h with mem := store h.mem (b.data + o) K.size bits } ∧ r = v ∧
      sd_set_run K h b o v = ⟨h1, b, .ok r⟩ := by
  unfold sd_set at hok
  unfold sd_set_run
  cases hb : sd_check_block_bounds b o K.size with
  | error e => simp only [hb] at hok; cases hok
  | ok u =>
    simp only [hb] at hok ⊢
    cases hn : sd_check_null_block b with
    | error e => simp only [hn] at hok; cases hok
    | ok u1 =>
      simp only [hn] at hok ⊢
      cases hf : rb_check_frozen b with
      | error e => simp only [hf] at hok; cases hok
      | ok u2 =>
        simp only [hf] at hok ⊢
        cases hc : K.of_num v with
        | error e => simp only [hc] at hok; cases hok
        | ok bits =>
          simp only [hc] at hok ⊢
          injection hok with hok
          injection hok with hh hr
          subst hh
          subst hr
          exact ⟨bits, rfl, rfl, rfl⟩

/-- C35: for every scalar kind, a typed setter that returns has changed no byte
outside the `sizeof` bytes at its offset, has released nothing, and leaves the
block record (address, size, alignment, release callback, frozen flag) as it
was; a typed getter, whether it returns or raises, leaves heap and block as
they were. -/
theorem typed_accessor_frame (K : ScalarKind) (h : Heap) (b : Memory) (o : Nat) (v : Int)
    (h1 : Heap) (r : Int) (hok : sd_set K h b o v = .ok (h1, r)) :
    (∀ x, ¬ (b.data + o ≤ x ∧ x < b.data + o + K.size) → h1.mem x = h.mem x) ∧
    h1.released = h.released ∧
    sd_set_run K h b o v = ⟨h1, b, .ok r⟩ ∧
    (∀ g c o2, sd_get_run K g c o2 = ⟨g, c, sd_get K g c o2⟩) := by
  obtain ⟨bits, hh, _, hrun⟩ := sd_set_inv hok
  refine ⟨?_, ?_, hrun, ?_⟩
  · intro x hx
    rw [hh]
    show store _ _ _ _ x = _
    unfold store
    rw [if_neg hx]
  · rw [hh]
  · intro g c o2
    unfold sd_get_run sd_get
    cases sd_check_block_bounds c o2 K.size
    · rfl
    · cases sd_check_null_block c <;> rfl

/-- Witness for C35: `set_uint16(3, 513)` on the 8-byte block at `4096`. -/
theorem typed_accessor_frame_witness :
    (∀ x, ¬ (wrapped8.data + 3 ≤ x ∧ x < wrapped8.data + 3 + uint16_t.size) →
      (store heap_pattern.mem (wrapped8.data + 3) uint16_t.size 513) x = heap_pattern.mem x) ∧
    heap_pattern.released = heap_pattern.released ∧
    sd_set_run uint16_t heap_pattern wrapped8 3 513
      = ⟨{ heap_pattern with mem := store heap_pattern.mem (wrapped8.data + 3) uint16_t.size 513 },
         wrapped8, .ok 513⟩ ∧
    (∀ g c o2, sd_get_run uint16_t g c o2 = ⟨g, c, sd_get uint16_t g c o2⟩) :=
  typed_accessor_frame uint16_t heap_pattern wrapped8 3 513
    { heap_pattern with mem := store heap_pattern.mem (wrapped8.data + 3) uint16_t.size 513 } 513
    (sd_set_ok uint16_t heap_pattern wrapped8 3 513 513 (by decide) rfl (by decide) (by decide)
      (by decide) (by decide))

/-! ## Copy with the count defaulted -/

/-- A defaulted count is the count `bytesize - destination_offset`, taken as a `size_t`. -/
theorem sd_memory_copy_run_default (h : Heap) (b : Memory) (src : Nat)
    (sz sd_d sd_s : Option Nat) :
    sd_memory_copy_run h b src sz sd_d sd_s none =
      sd_memory_copy_run h b src sz sd_d sd_s (some (wsub b.bytesize (sd_d.getD 0))) := rfl

/-- C36: for a live unfrozen destination of size `N`, a non-null raw source
address and the count omitted, `copy!` with a destination offset `d ≤ N`
succeeds and moves exactly `N - d` bytes (none when `d = N`: heap and block
unchanged); with a `size_t` offset `d > N` it raises `OutOfBounds` and leaves
heap and block unchanged. -/
theorem sd_memory_copy_default_count (h : Heap) (b : Memory) (src : Nat)
    (sd_d sd_s : Option Nat) (hlive : b.data ≠ 0) (hmut : b.frozen = false) (hsrc : src ≠ 0)
    (hN0 : 0 < b.bytesize) (hN : b.bytesize < 2 ^ 64) (hd : sd_d.getD 0 < 2 ^ 64) :
    (sd_d.getD 0 ≤ b.bytesize →
      ∃ h1, sd_memory_copy_run h b src none sd_d sd_s none = ⟨h1, b, .ok ()⟩ ∧
        sd_memory_copy h b src none sd_d sd_s none = .ok (h1, b) ∧
        (∀ i, i < b.bytesize - sd_d.getD 0 →
          h1.mem (b.data + sd_d.getD 0 + i) = h.mem (src + sd_s.getD 0 + i)) ∧
        (∀ x, ¬ (b.data + sd_d.getD 0 ≤ x ∧ x < b.data + b.bytesize) → h1.mem x = h.mem x) ∧
        h1.released = h.released ∧
        (sd_d.getD 0 = b.bytesize → h1 = h)) ∧
    (b.bytesize < sd_d.getD 0 →
      sd_memory_copy_run h b src none sd_d sd_s none = ⟨h, b, .error .OutOfBounds⟩ ∧
      sd_memory_copy h b src none sd_d sd_s none = .error .OutOfBounds) := by
  constructor
  · intro hle
    have hcnt : wsub b.bytesize (sd_d.getD 0) = b.bytesize - sd_d.getD 0 :=
      wsub_eq_of_le hN hle
    have hrun := sd_memory_copy_run_ok h b src none sd_d sd_s (b.bytesize - sd_d.getD 0)
      hlive hmut hsrc (by omega) hN (by omega) (fun size hsz => by cases hsz)
    have hdef := sd_memory_copy_run_default h b src none sd_d sd_s
    rw [hcnt, hrun] at hdef
    have hst := sd_memory_copy_run_state h b src none sd_d sd_s none
    rw [hdef] at hst
    refine ⟨_, hdef, hst.symm, ?_, ?_, ?_, ?_⟩
    · intro i hi
      by_cases hskip : b.bytesize - sd_d.getD 0 = 0 ∨ src + sd_s.getD 0 = b.data + sd_d.getD 0
      · rw [if_pos hskip]
        rcases hskip with h0 | heq
        · omega
        · rw [heq]
      · rw [if_neg hskip]
        show memmove _ _ _ _ _ = _
        unfold memmove
        rw [if_pos ⟨by omega, by omega⟩, Nat.add_sub_cancel_left]
    · intro x hx
      by_cases hskip : b.bytesize - sd_d.getD 0 = 0 ∨ src + sd_s.getD 0 = b.data + sd_d.getD 0
      · rw [if_pos hskip]
      · rw [if_neg hskip]
        show memmove _ _ _ _ _ = _
        unfold memmove
        rw [if_neg (by omega)]
    · split_ifs <;> rfl
    · intro heq
      rw [if_pos (Or.inl (by omega))]
  · intro hgt
    have hcnt : wsub b.bytesize (sd_d.getD 0) = b.bytesize + 2 ^ 64 - sd_d.getD 0 := by
      unfold wsub
      rw [Nat.mod_eq_of_lt hN, Nat.mod_eq_of_lt hd]
      exact Nat.mod_eq_of_lt (by omega)
    have hsum : wadd (sd_d.getD 0) (b.bytesize + 2 ^ 64 - sd_d.getD 0) = b.bytesize := by
      unfold wadd
      have he : sd_d.getD 0 + (b.bytesize + 2 ^ 64 - sd_d.getD 0) = b.bytesize + 2 ^ 64 := by
        omega
      rw [he, Nat.add_mod_right]
      exact Nat.mod_eq_of_lt hN
    have hchk : b.bytesize > b.bytesize ∨ b.bytesize < sd_d.getD 0 := Or.inr hgt
    have hN0' : b.bytesize ≠ 0 := by omega
    have hrun : sd_memory_copy_run h b src none sd_d sd_s none = ⟨h, b, .error .OutOfBounds⟩ := by
      rw [sd_memory_copy_run_default]
      unfold sd_memory_copy_run sd_check_null_block rb_check_frozen
      simp only [hlive, hmut, hsrc, hN0', hcnt, hsum, hchk, if_false, if_true,
        Bool.false_eq_true, Bool.not_true]
    have hst := sd_memory_copy_run_state h b src none sd_d sd_s none
    rw [hrun] at hst
    exact ⟨hrun, hst.symm⟩

/-- Witness for C36: the 10-byte block at `4096` holding `0..9` and the raw source
address `4096`: `copy!(4096, 4)` moves 6 bytes and leaves
`0, 1, 2, 3, 0, 1, 2, 3, 4, 5`; `copy!(4096, 10)` moves nothing; `copy!(4096, 11)`
raises `OutOfBounds`. -/
theorem sd_memory_copy_default_count_witness :
    (∃ h1, sd_memory_copy_run heap_pattern wrapped10 4096 none (some 4) none none
          = ⟨h1, wrapped10, .ok ()⟩ ∧
        sd_memory_copy heap_pattern wrapped10 4096 none (some 4) none none
          = .ok (h1, wrapped10) ∧
        (∀ i, i < wrapped10.bytesize - (some 4).getD 0 →
          h1.mem (wrapped10.data + (some 4).getD 0 + i)
            = heap_pattern.mem (4096 + (none : Option Nat).getD 0 + i)) ∧
        (∀ x, ¬ (wrapped10.data + (some 4).getD 0 ≤ x ∧ x < wrapped10.data + wrapped10.bytesize) →
          h1.mem x = heap_pattern.mem x) ∧
        h1.released = heap_pattern.released ∧
        ((some 4).getD 0 = wrapped10.bytesize → h1 = heap_pattern)) ∧
    (sd_memory_copy heap_pattern wrapped10 4096 none (some 4) none none).map
        (fun r => (List.range 10).map fun i => r.1.mem (r.2.data + i))
      = .ok [0, 1, 2, 3, 0, 1, 2, 3, 4, 5] ∧
    (sd_memory_copy_run heap_pattern wrapped10 4096 none (some 11) none none
        = ⟨heap_pattern, wrapped10, .error .OutOfBounds⟩ ∧
      sd_memory_copy heap_pattern wrapped10 4096 none (some 11) none none
        = .error .OutOfBounds) :=
  ⟨(sd_memory_copy_default_count heap_pattern wrapped10 4096 (some 4) none (by decide) rfl
      (by decide) (by decide) (by norm_num [wrapped10]) (by norm_num)).1 (by decide),
   by decide,
   (sd_memory_copy_default_count heap_pattern wrapped10 4096 (some 11) none (by decide) rfl
      (by decide) (by decide) (by norm_num [wrapped10]) (by norm_num)).2 (by decide)⟩

/-! ## The block as a string -/

/-- The scan loop started within the size ends within the size. -/
theorem scan_nul_le (m : Nat → Nat) (data N : Nat) :
    ∀ fuel start, start ≤ N → scan_nul m data N fuel start ≤ N := by
  intro fuel
  induction fuel with
  | zero => intro start hs; exact hs
  | succ n ih =>
    intro start hs
    unfold scan_nul
    split
    · next hc => exact ih (start + 1) (by omega)
    · exact hs

/-- C37: `to_s` with the argument omitted, `nil` or true returns what
`get_string(0)` returns, and `to_s(false)` returns what `get_string(0, -1)`
returns (`-1` is the all-ones length), which on a live block is every byte of
the block; on a block with a null address all of them raise `NullBlock`. -/
theorem sd_memory_to_s_eq_get_string (h : Heap) (b : Memory) (hN : b.bytesize < 2 ^ 64) :
    sd_memory_to_s h b none = sd_get_string h b 0 none ∧
    sd_memory_to_s h b (some true) = sd_get_string h b 0 none ∧
    sd_memory_to_s h b (some false) = sd_get_string h b 0 (some (2 ^ 64 - 1)) ∧
    (b.data ≠ 0 → sd_memory_to_s h b (some false)
      = .ok ((List.range b.bytesize).map fun i => h.mem (b.data + i) % 256)) ∧
    (b.data = 0 → ∀ nt, sd_memory_to_s h b nt = .error .NullBlock) := by
  have hscan : wsub (scan_nul h.mem b.data b.bytesize b.bytesize 0) 0
      = scan_nul h.mem b.data b.bytesize b.bytesize 0 := by
    have hle := scan_nul_le h.mem b.data b.bytesize b.bytesize 0 (Nat.zero_le _)
    rw [wsub_eq_of_le (by omega) (Nat.zero_le _)]
    rfl
  have hall : wsub b.bytesize 0 = b.bytesize := by
    rw [wsub_eq_of_le hN (Nat.zero_le _)]
    rfl
  have hauto : sd_memory_to_s h b none = sd_get_string h b 0 none := by
    unfold sd_memory_to_s sd_get_string
    cases sd_check_null_block b
    · rfl
    · by_cases h0 : b.bytesize = 0
      · simp [h0, scan_nul, rb_str_new]
      · have hpos : ¬ (0 ≥ b.bytesize) := by omega
        simp only [hpos, if_false, hscan, Nat.sub_zero, Nat.add_zero, true_or, if_true]
  refine ⟨hauto, ?_, ?_, ?_, ?_⟩
  · rw [← hauto]
    unfold sd_memory_to_s
    cases sd_check_null_block b
    · rfl
    · simp
  · unfold sd_memory_to_s sd_get_string
    cases sd_check_null_block b
    · rfl
    · by_cases h0 : b.bytesize = 0
      · simp [h0, rb_str_new]
      · have hpos : ¬ (0 ≥ b.bytesize) := by omega
        simp [hpos, hall]
  · intro hlive
    unfold sd_memory_to_s sd_check_null_block rb_str_new
    simp [hlive]
  · intro hnull nt
    unfold sd_memory_to_s sd_check_null_block
    simp [hnull]

/-- Witness for C37: the 8-byte block holding `hi\0world`. -/
theorem sd_memory_to_s_eq_get_string_witness :
    (sd_memory_to_s heap_hi_world wrapped8 none = sd_get_string heap_hi_world wrapped8 0 none ∧
      sd_memory_to_s heap_hi_world wrapped8 (some true)
        = sd_get_string heap_hi_world wrapped8 0 none ∧
      sd_memory_to_s heap_hi_world wrapped8 (some false)
        = sd_get_string heap_hi_world wrapped8 0 (some (2 ^ 64 - 1)) ∧
      (wrapped8.data ≠ 0 → sd_memory_to_s heap_hi_world wrapped8 (some false)
        = .ok ((List.range wrapped8.bytesize).map
            fun i => heap_hi_world.mem (wrapped8.data + i) % 256)) ∧
      (wrapped8.data = 0 → ∀ nt, sd_memory_to_s heap_hi_world wrapped8 nt = .error .NullBlock)) ∧
    sd_memory_to_s heap_hi_world wrapped8 none = .ok [104, 105] ∧
    sd_memory_to_s heap_hi_world wrapped8 (some false)
      = .ok [104, 105, 0, 119, 111, 114, 108, 100] :=
  ⟨sd_memory_to_s_eq_get_string heap_hi_world wrapped8 (by norm_num [wrapped8]),
   by decide, by decide⟩

/-! ## Strings written and read back -/

/-- C38 (defect): on the 4-byte block at `4096` over a heap full of `0xFF`,
`set_string(3, "", true)` (for which `o + len(s) + 1 ≤ N`) writes no
terminator, so `get_string(3)` afterwards returns the one byte `0xFF`
instead of the empty string; `get_string(3, 0)` does return the empty string. -/
theorem set_empty_string_at_last_byte_reads_back_old_byte :
    3 + ([] : List Nat).length + 1 ≤ wrapped4.bytesize ∧
    ((sd_set_string heap_ff wrapped4 3 [] true).bind fun r => sd_get_string r.1 wrapped4 3 none)
      = .ok [255] ∧
    ((sd_set_string heap_ff wrapped4 3 [] true).bind
        fun r => sd_get_string r.1 wrapped4 3 (some 0))
      = .ok [] ∧
    ((sd_set_string heap_ff wrapped4 2 [] true).bind fun r => sd_get_string r.1 wrapped4 2 none)
      = .ok [] := by
  decide

/-! ## Ownership invariant -/

/-- The function `sd_memory_free` never reaches the `InvalidFree` raise of `com_free`. -/
theorem sd_memory_free_no_invalid_free (h : Heap) (b : Memory) :
    sd_memory_free h b ≠ .error .InvalidFree := by
  intro hc
  unfold sd_memory_free com_free rb_check_frozen at hc
  by_cases hfr : b.frozen = true
  · simp [hfr] at hc
  · by_cases hd : b.data = 0
    · simp [hfr, hd] at hc
    · cases hdf : b.dfree
      · simp [hfr, hd, hdf] at hc
      · simp [hfr, hd, hdf] at hc

/-- The function `sd_memory_realloc` does not reach the `InvalidFree` raise of `com_free` on
a block whose release callback is only set with a non-null address. -/
theorem sd_memory_realloc_no_invalid_free (h : Heap) (p : Nat) (b : Memory) (size : Nat)
    (al : Option Nat) (hown : b.dfree = true → b.data ≠ 0) :
    sd_memory_realloc h p b size al ≠ .error .InvalidFree := by
  intro hc
  unfold sd_memory_realloc com_malloc com_free rb_check_frozen at hc
  dsimp only at hc
  by_cases hfr : b.frozen = true
  · simp [hfr] at hc
  · by_cases hsame : b.bytesize = size ∧ al.getD b.alignment = b.alignment
    · simp [hfr, hsame] at hc
    · by_cases hpow : is_power_of_two (al.getD b.alignment) = true
      · by_cases hs : size < 1
        · simp [hfr, hsame, hpow, hs] at hc
        · by_cases hp : p = 0
          · simp [hfr, hsame, hpow, hs, hp] at hc
          · cases hdf : b.dfree
            · simp [hfr, hsame, hpow, hs, hp, hdf] at hc
            · have hd := hown hdf
              simp [hfr, hsame, hpow, hs, hp, hdf, hd] at hc
      · simp [hfr, hsame, hpow] at hc

/-- C39: in every state reachable by successful `malloc`, `new`, `realloc!` and
`free!` calls (typed setters and `copy!` included), a block whose release
callback is set has a non-null address; hence `free!` and `realloc!`, whatever
their arguments, never raise `InvalidFree` there. -/
theorem owner_is_live_of_reachable (h : Heap) (b : Memory)
    (hr : Reachable (fun _ => True) h b) :
    (b.dfree = true → b.data ≠ 0) ∧
    sd_memory_free h b ≠ .error .InvalidFree ∧
    (∀ p size al, sd_memory_realloc h p b size al ≠ .error .InvalidFree) := by
  have hown : b.dfree = true → b.data ≠ 0 := by
    induction hr with
    | malloc h p size al h1 b hc =>
      unfold malloc_call at hc
      obtain ⟨_, ha, hret, heq⟩ := hc
      obtain ⟨hpow, _, _, hb⟩ := sd_memory_malloc_inv heq
      have hne := align_ptr_ne_zero hret ha hpow
      rw [hb]
      exact fun _ => hne
    | wrap h address size al h1 b _ hc =>
      unfold wrap_call at hc
      obtain ⟨_, _, hb⟩ := sd_memory_new_inv hc.2.2.2
      rw [hb]
      intro hf
      cases hf
    | realloc h b p size al h1 b1 _ hc ih =>
      unfold realloc_call at hc
      obtain ⟨_, ha, hret, heq⟩ := hc
      rcases sd_memory_realloc_inv heq with hb | ⟨hpow, _, _, hb⟩
      · rw [hb]; exact ih
      · have hne := align_ptr_ne_zero hret ha hpow
        rw [hb]
        exact fun _ => hne
    | free h b h1 b1 _ hc ih =>
      obtain ⟨_, _, _, _, hdf, _⟩ := sd_memory_free_inv hc
      intro hf
      rw [hdf] at hf
      cases hf
    | set h b K offset v h1 r _ _ ih => exact ih
    | copy h b src sz d s n h1 b1 _ hc ih =>
      rw [sd_memory_copy_inv hc]; exact ih
  exact ⟨hown, sd_memory_free_no_invalid_free h b,
    fun p size al => sd_memory_realloc_no_invalid_free h p b size al hown⟩

/-- Witness for C39: the block `malloc(8)` returns, which owns its non-null
address, and the block `free!` then leaves, which owns nothing. -/
theorem owner_is_live_of_reachable_witness :
    (Reachable (fun _ => True) heap_owned8 owned8 ∧ owned8.dfree = true ∧ owned8.data ≠ 0 ∧
      sd_memory_free heap_owned8 owned8 ≠ .error .InvalidFree ∧
      (∀ p size al, sd_memory_realloc heap_owned8 p owned8 size al ≠ .error .InvalidFree)) ∧
    (Reachable (fun _ => True) ⟨heap_owned8.mem, [8192]⟩ ⟨0, false, 0, 8, false⟩ ∧
      sd_memory_free ⟨heap_owned8.mem, [8192]⟩ ⟨0, false, 0, 8, false⟩ = .error .DoubleFree) :=
  have hr : Reachable (fun _ => True) heap_owned8 owned8 :=
    Reachable.malloc heap_ff 8192 8 none heap_owned8 owned8
      (by unfold malloc_call; exact ⟨by norm_num, by norm_num [Option.getD], by decide, rfl⟩)
  have hf : Reachable (fun _ => True) ⟨heap_owned8.mem, [8192]⟩ ⟨0, false, 0, 8, false⟩ :=
    Reachable.free heap_owned8 owned8 _ _ hr rfl
  have t := owner_is_live_of_reachable heap_owned8 owned8 hr
  ⟨⟨hr, rfl, t.1 rfl, t.2.1, t.2.2⟩, hf, rfl⟩

end SnowData
